import Mathlib

/-!
Shallow embedding of the round simulation engine of `game.py`
(swadge-game-flaschen): grid constants, directions, powerups, portal
entities, the per-player movement state machine `PlayerInfo`, the
per-sub-step movement resolution `move`, and a small-step transition
system over the whole game state used to state reachability invariants.

Mutable Python objects that are shared (a held `Powerup`, a linked
`Portal`) are represented by indices into the round's powerup/entity
lists, so that in-place mutation becomes an update of the list entry.
-/

set_option maxHeartbeats 1000000

namespace SwadgeGame

/-- Grid width in cells, the constant `WIDTH = 512` of game.py. -/
def WIDTH : Int := 512

/-- Grid height in cells, the constant `HEIGHT = 32` of game.py. -/
def HEIGHT : Int := 32

/-- Color constant `Color.ORANGE` of game.py. -/
def ORANGE : Nat := 0xff7f00

/-- Color constant `Color.CYAN` of game.py. -/
def CYAN : Nat := 0x00ffff

/-- Color constant `Color.GREEN` of game.py. -/
def GREEN : Nat := 0x00ff00

/-- Color constant `Color.WHITE` of game.py. -/
def WHITE : Nat := 0xffffff

/-- The four movement directions `'u'`, `'d'`, `'l'`, `'r'` of game.py. -/
inductive Dir : Type
  | u | d | l | r
deriving DecidableEq

/-- A grid cell: a pair of integer coordinates, as the `(x, y)` tuples of game.py. -/
abbrev Cell : Type := Int × Int

/-- Function `dir_to_dxdy` of game.py. -/
def dir_to_dxdy : Dir → Int × Int
  | .r => (1, 0)
  | .l => (-1, 0)
  | .d => (0, 1)
  | .u => (0, -1)

/-- Function `dxdy_to_dir` of game.py; `none` models Python's implicit
`None` result when `dx = dy = 0` (which never occurs in the game). -/
def dxdy_to_dir (dx dy : Int) : Option Dir :=
  if 0 < dx then some .r
  else if dx < 0 then some .l
  else if 0 < dy then some .d
  else if dy < 0 then some .u
  else none

/-- Function `dir_to_num` of game.py (as an integer, so that the offset
arithmetic of `Portal.calculate_path` can go negative as in Python). -/
def dir_to_num : Dir → Int
  | .u => 0
  | .r => 1
  | .d => 2
  | .l => 3

/-- Function `num_to_dir` of game.py: indexing `['u','r','d','l']` at
`direction % 4`; Python's `%` on negatives agrees with `Int.emod`. -/
def num_to_dir (n : Int) : Dir :=
  if n % 4 = 0 then .u
  else if n % 4 = 1 then .r
  else if n % 4 = 2 then .d
  else .l

/-- The three powerup kinds of game.py (`JumpPowerup`, `SpeedPowerup`,
`PortalPowerup`), modelled as a tag instead of subclassing. -/
inductive PKind : Type
  | Jump | Speed | Portal
deriving DecidableEq

/-- The `Powerup` class hierarchy of game.py flattened into one record.
The portal-specific fields are unused (and kept at their defaults) for
the Jump and Speed kinds.  `orange_portal` / `blue_portal` are indices
into the round's entity list, standing for the Python object references. -/
structure Powerup : Type where
  kind : PKind
  x : Int
  y : Int
  consumed : Bool
  activated : Bool
  ticks : Nat
  color : Nat
  orange_activated : Bool
  blue_activated : Bool
  orange_deployed : Bool
  blue_deployed : Bool
  orange_portal : Option Nat
  blue_portal : Option Nat
deriving DecidableEq

/-- The `position` attribute of a `Powerup` (set from `x`, `y` at init
and never changed). -/
def Powerup.position (pu : Powerup) : Cell := (pu.x, pu.y)

/-- Constructor dispatch of game.py: `JumpPowerup(x, y)` has 1 tick,
`SpeedPowerup(x, y)` has 30 ticks, `PortalPowerup(x, y)` has 1 tick and
clear deployment state; all start un-consumed and un-activated. -/
def mkPowerup (x y : Int) (k : PKind) : Powerup :=
  { kind := k
    x := x
    y := y
    consumed := false
    activated := false
    ticks := match k with | .Speed => 30 | _ => 1
    color := match k with | .Jump => WHITE | .Speed => GREEN | .Portal => ORANGE
    orange_activated := false
    blue_activated := false
    orange_deployed := false
    blue_deployed := false
    orange_portal := none
    blue_portal := none }

/-- Default `Powerup`, used only as the out-of-range fallback of list reads. -/
def dPU : Powerup := mkPowerup 0 0 .Jump

/-- The `activated` property: the base classes use the `activated` flag,
while `PortalPowerup` overrides it as `orange_activated or blue_activated`. -/
def Powerup.isActivated (pu : Powerup) : Bool :=
  match pu.kind with
  | .Portal => pu.orange_activated || pu.blue_activated
  | _ => pu.activated

/-- The `exhausted` property: `not bool(self.ticks)` for the base classes,
overridden for `PortalPowerup` as `orange_deployed and blue_deployed`. -/
def Powerup.exhausted (pu : Powerup) : Bool :=
  match pu.kind with
  | .Portal => pu.orange_deployed && pu.blue_deployed
  | _ => pu.ticks == 0

/-- Method `Powerup.tick` of game.py: `if self.ticks: self.ticks -= 1`. -/
def Powerup.tick (pu : Powerup) : Powerup :=
  if pu.ticks == 0 then pu else { pu with ticks := pu.ticks - 1 }

/-- Method `Powerup.consume` of game.py. -/
def Powerup.consume (pu : Powerup) : Powerup := { pu with consumed := true }

/-- Method `activate` of game.py, dispatched by kind: the base sets
`activated`; `PortalPowerup.activate` sets `orange_activated` instead.
(`SpeedPowerup.activate` additionally sets `player.moves = 2`; that part
lives in `pressB` which has access to the player.) -/
def Powerup.activateUpd (pu : Powerup) : Powerup :=
  match pu.kind with
  | .Portal => { pu with orange_activated := true }
  | _ => { pu with activated := true }

/-- Method `activate_secondary` of game.py: a no-op except for
`PortalPowerup`, which sets `blue_activated`. -/
def Powerup.activateSecondaryUpd (pu : Powerup) : Powerup :=
  match pu.kind with
  | .Portal => { pu with blue_activated := true }
  | _ => pu

/-- Method `PortalPowerup.set_orange` of game.py, with the new portal
given by its index `n` in the entity list (linking of the two portal
entities themselves is done by `linkAt` on the entity list). -/
def Powerup.set_orange (pu : Powerup) (n : Nat) : Powerup :=
  { pu with orange_deployed := true, orange_portal := some n }

/-- Method `PortalPowerup.set_blue` of game.py. -/
def Powerup.set_blue (pu : Powerup) (n : Nat) : Powerup :=
  { pu with blue_deployed := true, blue_portal := some n }

/-- The `Portal` entity of game.py. `other` is the index of the linked
partner portal in the round's entity list (`None` until linked). -/
structure Portal : Type where
  x : Int
  y : Int
  direction : Dir
  color : Nat
  other : Option Nat
deriving DecidableEq

/-- Default `Portal`, used only as the out-of-range fallback of list reads. -/
def dPortal : Portal := { x := 0, y := 0, direction := .u, color := 0, other := none }

/-- Method `Portal.points` of game.py: the 5-cell span, enumerated in an
order that depends on the facing direction. -/
def Portal.points (p : Portal) : List Cell :=
  let horiz : List Cell :=
    [(p.x - 2, p.y), (p.x - 1, p.y), (p.x, p.y), (p.x + 1, p.y), (p.x + 2, p.y)]
  let vert : List Cell :=
    [(p.x, p.y - 2), (p.x, p.y - 1), (p.x, p.y), (p.x, p.y + 1), (p.x, p.y + 2)]
  match p.direction with
  | .r => vert
  | .l => vert.reverse
  | .u => horiz
  | .d => horiz.reverse

/-- Method `Portal.collide` of game.py: `(x, y) in self.points()`. -/
def Portal.collide (p : Portal) (c : Cell) : Bool := decide (c ∈ p.points)

/-- Python's `list.index`: index of the first occurrence (the game only
calls it on elements known to be present). -/
def indexOfCell (c : Cell) : List Cell → Nat
  | [] => 0
  | d :: rest => if d = c then 0 else indexOfCell c rest + 1

/-- Method `Portal.calculate_path` of game.py.  The partner reference
`self.other` is resolved through the round's entity list `ents`.  The
`.getD p.direction` fallback models an unreachable branch (the incoming
`(dx, dy)` is never `(0, 0)`). -/
def Portal.calculate_path (p : Portal) (ents : List Portal) (c : Cell) (dx dy : Int) :
    Cell × (Int × Int) :=
  match p.other with
  | none => (c, (dx, dy))
  | some oi =>
    if p.collide c then
      let o := ents.getD oi dPortal
      let dirnum := dir_to_num ((dxdy_to_dir dx dy).getD p.direction)
      let diff := dirnum - dir_to_num p.direction
      let new_dir := num_to_dir (dir_to_num o.direction + diff + 2)
      let pos_off := indexOfCell c p.points
      let new_pos := o.points.getD pos_off (0, 0)
      (new_pos, dir_to_dxdy new_dir)
    else (c, (dx, dy))

/-- Method `Portal.link` of game.py, applied inside the entity list: set
the `other` reference of the portal at index `m` (when `partner = some m`)
to the newly deployed portal's index `n`. -/
def linkAt (ents : List Portal) (partner : Option Nat) (n : Nat) : List Portal :=
  match partner with
  | none => ents
  | some m => ents.set m { ents.getD m dPortal with other := some n }

/-- The per-player game state of class `PlayerInfo` in game.py.  The held
powerup is an index into the round's powerup list (the Python reference
`self.powerup`).  Presentation-only fields (`light_settings`,
`subscriptions`) are omitted. -/
structure PlayerInfo : Type where
  wins : Nat
  plays : Nat
  maxlen : Nat
  powerup : Option Nat
  badge_id : Nat
  color : Nat
  torus : Bool × Bool
  moves : Nat
  invincible : Bool
  direction : Dir
  trail : List Cell
  dead : Bool
  brightness : ℚ
  moved : Bool
deriving DecidableEq

/-- The `position` property of game.py: `self.trail[-1]`.  The default
`(0, 0)` models the (unreachable in the game) empty-trail case where
Python would raise. -/
def PlayerInfo.position (p : PlayerInfo) : Cell := p.trail.getLast?.getD (0, 0)

/-- Method `PlayerInfo.reset` of game.py, with the randomly drawn spawn
cell `(sx, sy)` passed in explicitly. -/
def PlayerInfo.reset (p : PlayerInfo) (sx sy : Int) : PlayerInfo :=
  { p with
    direction := if sx > WIDTH / 2 then Dir.l else Dir.r
    maxlen := 0
    powerup := none
    moves := 1
    trail := [(sx, sy)]
    dead := false
    brightness := 1 / 10
    moved := false }

/-- Constructor `PlayerInfo.__init__` of game.py: fresh counters, the
module-level torus flags `(TORUS_H, TORUS_V) = (False, False)`, one move
per tick, not invincible, then `reset()` with the drawn spawn cell. -/
def mkPlayer (badge color : Nat) (sx sy : Int) : PlayerInfo :=
  PlayerInfo.reset
    { wins := 0
      plays := 0
      maxlen := 0
      powerup := none
      badge_id := badge
      color := color
      torus := (false, false)
      moves := 1
      invincible := false
      direction := .r
      trail := []
      dead := false
      brightness := 1 / 10
      moved := false } sx sy

/-- Default `PlayerInfo`, used only as the out-of-range fallback of list
reads; it is dead, so an out-of-range `move` is a no-op. -/
def dP : PlayerInfo := { mkPlayer 0 0 0 0 with dead := true }

/-- A direction-change button press (`up`/`down`/`left`/`right` of game.py). -/
inductive TurnReq : Type
  | u | d | l | r
deriving DecidableEq

/-- Methods `up`, `down`, `left`, `right` of game.py: a turn request is
ignored when it reverses the current heading or when a turn was already
accepted (`self.moved`); otherwise it sets the direction and `moved`. -/
def applyTurn (req : TurnReq) (p : PlayerInfo) : PlayerInfo :=
  match req with
  | .u => if p.direction = .d then p else if p.moved then p
          else { p with direction := .u, moved := true }
  | .d => if p.direction = .u then p else if p.moved then p
          else { p with direction := .d, moved := true }
  | .l => if p.direction = .r then p else if p.moved then p
          else { p with direction := .l, moved := true }
  | .r => if p.direction = .l then p else if p.moved then p
          else { p with direction := .r, moved := true }

/-- The pop loop inside `PlayerInfo.nom`: `n` times, pop the oldest trail
cell if the trail is non-empty. -/
def nomPops : Nat → List Cell → List Cell
  | 0, t => t
  | n + 1, t => nomPops n (if t.isEmpty then t else t.tail)

/-- Method `PlayerInfo.nom` of game.py: memoize the trail length in
`maxlen` on the first call, then remove `max(maxlen // 30, 1)` cells from
the oldest end of the trail. -/
def PlayerInfo.nom (p : PlayerInfo) : PlayerInfo :=
  let m := if p.maxlen == 0 then p.trail.length else p.maxlen
  { p with maxlen := m, trail := nomPops (max (m / 30) 1) p.trail }

/-- Method `PlayerInfo.nommed` of game.py. -/
def PlayerInfo.nommed (p : PlayerInfo) : Bool := p.trail.isEmpty

/-- Result of one `PlayerInfo.move` call: the updated player plus the
(possibly mutated) shared powerup and entity lists. -/
structure MoveResult : Type where
  player : PlayerInfo
  powerups : List Powerup
  entities : List Portal
deriving DecidableEq

/-- Intermediate state after the held-powerup block at the top of
`PlayerInfo.move` (everything before `x, y = self.position`). -/
structure MgmtOut : Type where
  self : PlayerInfo
  powerups : List Powerup
  entities : List Portal
  dx : Int
  dy : Int
deriving DecidableEq

/-- The `if self.powerup.activated and not self.powerup.exhausted` body of
the held-powerup block of `PlayerInfo.move`, for the held index `i`:
apply the kind-specific effect (Jump: quadruple the displacement; Portal:
deploy the orange or blue portal entity 10 cells ahead, linking it to its
partner if the partner exists), then `self.powerup.tick()`. -/
def mgmtActive (self : PlayerInfo) (pus : List Powerup) (ents : List Portal)
    (dx dy : Int) (i : Nat) : MgmtOut :=
  let pu := pus.getD i dPU
  if pu.isActivated && !pu.exhausted then
    let b : MgmtOut :=
      match pu.kind with
      | .Jump => ⟨self, pus, ents, dx * 4, dy * 4⟩
      | .Speed => ⟨self, pus, ents, dx, dy⟩
      | .Portal =>
        if pu.orange_activated && !pu.orange_deployed then
          let portal : Portal :=
            { x := self.position.1 + 10 * dx, y := self.position.2 + 10 * dy
              direction := self.direction, color := ORANGE, other := pu.blue_portal }
          ⟨self, pus.set i (pu.set_orange ents.length),
            linkAt ents pu.blue_portal ents.length ++ [portal], dx, dy⟩
        else if pu.blue_activated && !pu.blue_deployed then
          let portal : Portal :=
            { x := self.position.1 + 10 * dx, y := self.position.2 + 10 * dy
              direction := self.direction, color := CYAN, other := pu.orange_portal }
          ⟨self, pus.set i (pu.set_blue ents.length),
            linkAt ents pu.orange_portal ents.length ++ [portal], dx, dy⟩
        else ⟨self, pus, ents, dx, dy⟩
    ⟨b.self, b.powerups.set i ((b.powerups.getD i dPU).tick), b.entities, b.dx, b.dy⟩
  else ⟨self, pus, ents, dx, dy⟩

/-- The held-powerup block at the top of `PlayerInfo.move` in game.py:
run `mgmtActive` for the held powerup (if any); afterwards, if the held
powerup is exhausted, run its `done` hook (Speed resets `moves` to 1) and
drop the reference. -/
def mgmtPhase (self : PlayerInfo) (pus : List Powerup) (ents : List Portal)
    (dx dy : Int) : MgmtOut :=
  match self.powerup with
  | none => ⟨self, pus, ents, dx, dy⟩
  | some i =>
    let a : MgmtOut := mgmtActive self pus ents dx dy i
    let pu2 := a.powerups.getD i dPU
    if pu2.exhausted then
      ⟨{ (if pu2.kind = PKind.Speed then { a.self with moves := 1 } else a.self) with
          powerup := none }, a.powerups, a.entities, a.dx, a.dy⟩
    else a

/-- The entity loop of `PlayerInfo.move`: every entity colliding with the
current candidate cell remaps it (and the player's direction) through
`calculate_path`.  All entities in the game are portals, so the Python
`entity.kind == 'Portal'` guard is always true.  Note that the loop keeps
using the original `dx, dy` for later entities, as the Python does. -/
def remapLoop (ctx : List Portal) (dx dy : Int) : List Portal → Cell × Dir → Cell × Dir
  | [], st => st
  | e :: rest, st =>
    remapLoop ctx dx dy rest
      (if e.collide st.1 then
        let r := e.calculate_path ctx st.1 dx dy
        (r.1, (dxdy_to_dir r.2.1 r.2.2).getD st.2)
      else st)

/-- The lethality test of `PlayerInfo.move`: skipped when invincible.
game.py unpacks `nx, ny = npos` at line 444, **before** the entity loop,
and the loop reassigns only `npos`; so the out-of-bounds test at line 453
uses the pre-remap candidate `nxy`, while the trail-membership test uses
the possibly portal-remapped cell `c`. -/
def lethalCheck (self : PlayerInfo) (trails : List (List Cell)) (nxy : Cell)
    (c : Cell) : Bool :=
  !self.invincible &&
    (decide (nxy.1 < 0) || decide (WIDTH ≤ nxy.1) || decide (nxy.2 < 0)
      || decide (HEIGHT ≤ nxy.2) || trails.any (fun t => decide (c ∈ t)))

/-- The pickup loop of `PlayerInfo.move`: every powerup on the candidate
cell is consumed, and the first one becomes the mover's held powerup when
the mover holds none (`j0` is the list index of the first element). -/
def pickupLoop (c : Cell) (j0 : Nat) : List Powerup → Option Nat → List Powerup × Option Nat
  | [], held => ([], held)
  | pu :: rest, held =>
    if pu.position = c then
      let held2 := match held with | none => some j0 | some k => some k
      let r := pickupLoop c (j0 + 1) rest held2
      (pu.consume :: r.1, r.2)
    else
      let r := pickupLoop c (j0 + 1) rest held
      (pu :: r.1, r.2)

/-- The held-powerup block of `PlayerInfo.move` applied to the unit
displacement of the player's current direction (the `dx, dy` computed at
the top of `move`). -/
def mgmtOf (self : PlayerInfo) (pus : List Powerup) (ents : List Portal) : MgmtOut :=
  mgmtPhase self pus ents (dir_to_dxdy self.direction).1 (dir_to_dxdy self.direction).2

/-- The candidate next cell of `PlayerInfo.move`:
`((x+dx) % WIDTH if torus[0] else x+dx, (y+dy) % HEIGHT if torus[1] else y+dy)`. -/
def candidateOf (m : MgmtOut) : Cell :=
  ((if m.self.torus.1 then (m.self.position.1 + m.dx) % WIDTH else m.self.position.1 + m.dx),
   (if m.self.torus.2 then (m.self.position.2 + m.dy) % HEIGHT else m.self.position.2 + m.dy))

/-- The entity loop of `PlayerInfo.move` applied to the candidate cell and
the current direction. -/
def remapOf (m : MgmtOut) : Cell × Dir :=
  remapLoop m.entities m.dx m.dy m.entities (candidateOf m, m.self.direction)

/-- Method `PlayerInfo.move` of game.py, one movement-resolution sub-step:
no-op when dead; otherwise run the held-powerup block, compute the
candidate cell (with per-axis toroidal wrap), remap it through portal
entities, kill the player on a lethal candidate (dead, brightness 0,
abort; the out-of-bounds half of the test reads `nx, ny`, bound to the
pre-remap candidate at line 444, while the trail half reads the remapped
`npos`), else run pickups, append the remapped candidate to the trail and
clear the per-tick turn flag. -/
def move (self : PlayerInfo) (trails : List (List Cell)) (pus : List Powerup)
    (ents : List Portal) : MoveResult :=
  if self.dead then ⟨self, pus, ents⟩
  else
    let m := mgmtOf self pus ents
    let rm := remapOf m
    let self1 := { m.self with direction := rm.2 }
    if lethalCheck self1 trails (candidateOf m) rm.1 then
      ⟨{ self1 with dead := true, brightness := 0 }, m.powerups, m.entities⟩
    else
      let pk := pickupLoop rm.1 0 m.powerups self1.powerup
      ⟨{ self1 with powerup := pk.2, trail := self1.trail ++ [rm.1], moved := false },
        pk.1, m.entities⟩

/-- The shared round state: the joined players and the current round's
powerup and entity lists (`self.players`, `self.powerups`, `self.entities`
of `GameComponent`). -/
structure GState : Type where
  players : List PlayerInfo
  powerups : List Powerup
  entities : List Portal
deriving DecidableEq

/-- One player's movement sub-step inside the tick loop of
`GameComponent.onJoin`: `player.move(self.players.values(), self.powerups,
self.entities)`. -/
def moveStep (s : GState) (i : Nat) : GState :=
  let p := s.players.getD i dP
  let r := move p (s.players.map (fun q => q.trail)) s.powerups s.entities
  ⟨s.players.set i r.player, r.powerups, r.entities⟩

/-- A button-press direction change delivered to player `i`
(`on_button_press` dispatching to `up`/`down`/`left`/`right`). -/
def turnStep (s : GState) (i : Nat) (req : TurnReq) : GState :=
  ⟨s.players.set i (applyTurn req (s.players.getD i dP)), s.powerups, s.entities⟩

/-- Method `PlayerInfo.b` of game.py (the B button): activate the held
powerup; `SpeedPowerup.activate` additionally sets the player's
`moves = 2`. -/
def pressB (s : GState) (i : Nat) : GState :=
  let p := s.players.getD i dP
  match p.powerup with
  | none => s
  | some j =>
    let pu := s.powerups.getD j dPU
    ⟨(if pu.kind = PKind.Speed then s.players.set i { p with moves := 2 } else s.players),
      s.powerups.set j pu.activateUpd, s.entities⟩

/-- Method `PlayerInfo.a` of game.py (the A button): secondary activation
of the held powerup. -/
def pressA (s : GState) (i : Nat) : GState :=
  let p := s.players.getD i dP
  match p.powerup with
  | none => s
  | some j => ⟨s.players, s.powerups.set j (s.powerups.getD j dPU).activateSecondaryUpd,
      s.entities⟩

/-- A cell lies in the `[0, WIDTH) × [0, HEIGHT)` grid (the range of the
`random.randrange` spawn draw, and the non-lethal region). -/
def inBoundsC (c : Cell) : Prop := 0 ≤ c.1 ∧ c.1 < WIDTH ∧ 0 ≤ c.2 ∧ c.2 < HEIGHT

instance (c : Cell) : Decidable (inBoundsC c) := by unfold inBoundsC; infer_instance

/-- End-of-round stat update in `GameComponent.onJoin`: survivors gain a
win, everyone gains a play. -/
def statsUpd (p : PlayerInfo) : PlayerInfo :=
  { p with wins := if p.dead then p.wins else p.wins + 1, plays := p.plays + 1 }

/-- One player's end-of-round treatment: stat update followed by
`player.reset()` with the fresh random spawn cell `c`. -/
def endRoundPlayer (p : PlayerInfo) (c : Cell) : PlayerInfo :=
  (statsUpd p).reset c.1 c.2

/-- End-of-round treatment of the whole roster (one fresh spawn per player). -/
def endRoundPlayers (ps : List PlayerInfo) (spawns : List Cell) : List PlayerInfo :=
  List.zipWith endRoundPlayer ps spawns

/-- The events that mutate the shared round state: button presses, one
movement sub-step, a powerup spawn, join/leave, and the end-of-round
stats/reset/clear sequence.  Random draws appear as constructor arguments
constrained to the range the Python draws from. -/
inductive GStep : GState → GState → Prop
  | turn (s : GState) (i : Nat) (req : TurnReq) : GStep s (turnStep s i req)
  | buttonA (s : GState) (i : Nat) : GStep s (pressA s i)
  | buttonB (s : GState) (i : Nat) : GStep s (pressB s i)
  | moveOne (s : GState) (i : Nat) : GStep s (moveStep s i)
  | spawnPU (s : GState) (x y : Int) (k : PKind) : inBoundsC (x, y) →
      GStep s ⟨s.players, s.powerups ++ [mkPowerup x y k], s.entities⟩
  | join (s : GState) (badge color : Nat) (sx sy : Int) : inBoundsC (sx, sy) →
      GStep s ⟨s.players ++ [mkPlayer badge color sx sy], s.powerups, s.entities⟩
  | leave (s : GState) (i : Nat) :
      GStep s ⟨s.players.eraseIdx i, s.powerups, s.entities⟩
  | endRound (s : GState) (spawns : List Cell) : (∀ c ∈ spawns, inBoundsC c) →
      GStep s ⟨endRoundPlayers s.players spawns, [], []⟩

/-- States reachable from the program start (empty roster, no powerups,
no entities). -/
inductive Reachable : GState → Prop
  | start : Reachable ⟨[], [], []⟩
  | step {s t : GState} : Reachable s → GStep s t → Reachable t

/-- Per-player part of the reachability invariant: default torus flags and
invincibility, an alive player has a non-empty trail, and a held powerup
is a valid, consumed list entry whose cell lies on the holder's own
trail. -/
def playerOK (pus : List Powerup) (p : PlayerInfo) : Prop :=
  p.torus = (false, false) ∧ p.invincible = false ∧
  (p.dead = false → p.trail ≠ []) ∧
  (∀ j, p.powerup = some j →
    j < pus.length ∧ (pus.getD j dPU).consumed = true ∧
      (pus.getD j dPU).position ∈ p.trail)

/-- The reachability invariant: every player is `playerOK`, no two players
hold the same powerup, and — as long as no portal entity has been placed —
every alive player's trail head is in bounds (a portal remap can break the
bounds part, because the out-of-bounds kill tests the pre-remap
candidate). -/
def Inv (s : GState) : Prop :=
  (∀ i, i < s.players.length → playerOK s.powerups (s.players.getD i dP)) ∧
  (∀ i₁ i₂ j, i₁ < s.players.length → i₂ < s.players.length →
    (s.players.getD i₁ dP).powerup = some j →
    (s.players.getD i₂ dP).powerup = some j → i₁ = i₂) ∧
  (s.entities = [] → ∀ i, i < s.players.length →
    (s.players.getD i dP).dead = false → inBoundsC (s.players.getD i dP).position)

/-! ### List helper lemmas -/

theorem getD_set (l : List α) (i j : Nat) (v d : α) :
    (l.set i v).getD j d = if j = i ∧ i < l.length then v else l.getD j d := by
  induction l generalizing i j with
  | nil => simp
  | cons a t ih =>
    cases i with
    | zero =>
      cases j with
      | zero => simp
      | succ j => simp
    | succ i =>
      cases j with
      | zero => simp
      | succ j =>
        have he : (j + 1 = i + 1 ∧ i + 1 < t.length + 1) ↔ (j = i ∧ i < t.length) := by
          omega
        simp only [List.set, List.getD_cons_succ, ih, List.length_cons, he]

theorem getD_append (l₁ l₂ : List α) (j : Nat) (d : α) :
    (l₁ ++ l₂).getD j d =
      if j < l₁.length then l₁.getD j d else l₂.getD (j - l₁.length) d := by
  induction l₁ generalizing j with
  | nil => simp
  | cons a t ih =>
    cases j with
    | zero => simp
    | succ j => simpa using ih j

theorem getD_length_le (l : List α) (j : Nat) (d : α) (h : l.length ≤ j) :
    l.getD j d = d := by
  induction l generalizing j with
  | nil => simp
  | cons a t ih =>
    cases j with
    | zero => simp at h
    | succ j =>
      simp only [List.getD_cons_succ]
      exact ih j (by simp only [List.length_cons] at h; omega)

theorem getD_mem (l : List α) (j : Nat) (d : α) (h : j < l.length) :
    l.getD j d ∈ l := by
  induction l generalizing j with
  | nil => simp at h
  | cons a t ih =>
    cases j with
    | zero => simp
    | succ j =>
      simp only [List.getD_cons_succ, List.mem_cons]
      exact Or.inr (ih j (by simpa using h))

theorem getD_map (f : α → β) (l : List α) (j : Nat) (d : α) (h : j < l.length) :
    (l.map f).getD j (f d) = f (l.getD j d) := by
  induction l generalizing j with
  | nil => simp at h
  | cons a t ih =>
    cases j with
    | zero => simp
    | succ j =>
      simp only [List.map_cons, List.getD_cons_succ]
      exact ih j (by simp only [List.length_cons] at h; omega)

theorem getD_eraseIdx (l : List α) (i k : Nat) (d : α) :
    (l.eraseIdx i).getD k d = l.getD (if k < i then k else k + 1) d := by
  induction l generalizing i k with
  | nil => simp [List.eraseIdx]
  | cons a t ih =>
    cases i with
    | zero => simp [List.eraseIdx]
    | succ i =>
      cases k with
      | zero => simp [List.eraseIdx]
      | succ k =>
        have he : (if k + 1 < i + 1 then k + 1 else k + 2) = (if k < i then k else k + 1) + 1 := by
          split <;> split <;> omega
        rw [he]
        simp only [List.eraseIdx, List.getD_cons_succ]
        exact ih i k

theorem eraseIdx_idx_lt (l : List α) (i k : Nat) (h : k < (l.eraseIdx i).length) :
    (if k < i then k else k + 1) < l.length := by
  induction l generalizing i k with
  | nil => simp [List.eraseIdx] at h
  | cons a t ih =>
    cases i with
    | zero =>
      simp only [List.eraseIdx] at h
      have hk : ¬ k < 0 := Nat.not_lt_zero k
      simp only [hk, if_false, List.length_cons]
      omega
    | succ i =>
      cases k with
      | zero => simp
      | succ k =>
        simp only [List.eraseIdx, List.length_cons] at h
        have hih := ih i k (Nat.lt_of_succ_lt_succ h)
        simp only [List.length_cons]
        split at hih <;> split <;> omega

theorem getD_zipWith (f : α → β → γ) (l₁ : List α) (l₂ : List β) (k : Nat)
    (d : γ) (d₁ : α) (d₂ : β) (h : k < (List.zipWith f l₁ l₂).length) :
    (List.zipWith f l₁ l₂).getD k d = f (l₁.getD k d₁) (l₂.getD k d₂) := by
  induction l₁ generalizing l₂ k with
  | nil => simp at h
  | cons a t ih =>
    cases l₂ with
    | nil => simp at h
    | cons b u =>
      cases k with
      | zero => simp
      | succ k =>
        simp only [List.zipWith, List.length_cons] at h ⊢
        simpa using ih u k (Nat.lt_of_succ_lt_succ h)

theorem getLast?_append_single (l : List α) (a : α) :
    (l ++ [a]).getLast? = some a :=
  List.getLast?_concat l

/-! ### Field-preservation facts for the powerup updates -/

theorem tick_consumed (q : Powerup) : q.tick.consumed = q.consumed := by
  unfold Powerup.tick; split <;> rfl

theorem tick_position (q : Powerup) : q.tick.position = q.position := by
  unfold Powerup.tick; split <;> rfl

theorem tick_kind (q : Powerup) : q.tick.kind = q.kind := by
  unfold Powerup.tick; split <;> rfl

theorem tick_activated (q : Powerup) : q.tick.activated = q.activated := by
  unfold Powerup.tick; split <;> rfl

theorem set_orange_consumed (q : Powerup) (n : Nat) :
    (q.set_orange n).consumed = q.consumed := rfl

theorem set_orange_position (q : Powerup) (n : Nat) :
    (q.set_orange n).position = q.position := rfl

theorem set_blue_consumed (q : Powerup) (n : Nat) :
    (q.set_blue n).consumed = q.consumed := rfl

theorem set_blue_position (q : Powerup) (n : Nat) :
    (q.set_blue n).position = q.position := rfl

theorem consume_position (q : Powerup) : q.consume.position = q.position := rfl

theorem consume_kind (q : Powerup) : q.consume.kind = q.kind := rfl

theorem consume_ticks (q : Powerup) : q.consume.ticks = q.ticks := rfl

theorem consume_activated (q : Powerup) : q.consume.activated = q.activated := rfl

theorem activateUpd_consumed (q : Powerup) : q.activateUpd.consumed = q.consumed := by
  unfold Powerup.activateUpd; split <;> rfl

theorem activateUpd_position (q : Powerup) : q.activateUpd.position = q.position := by
  unfold Powerup.activateUpd; split <;> rfl

theorem activateSecondaryUpd_consumed (q : Powerup) :
    q.activateSecondaryUpd.consumed = q.consumed := by
  unfold Powerup.activateSecondaryUpd; split <;> rfl

theorem activateSecondaryUpd_position (q : Powerup) :
    q.activateSecondaryUpd.position = q.position := by
  unfold Powerup.activateSecondaryUpd; split <;> rfl

/-- Reading a projection of an entry of `l.set i v` gives the original
entry's projection whenever `v` agrees with the entry it overwrites. -/
theorem proj_getD_set {β : Sort _} (g : Powerup → β) (l : List Powerup) (i j : Nat)
    (v : Powerup) (hv : g v = g (l.getD i dPU)) :
    g ((l.set i v).getD j dPU) = g (l.getD j dPU) := by
  rw [getD_set]
  split
  · next h => obtain ⟨rfl, _⟩ := h; exact hv
  · rfl

/-! ### Lemmas about the held-powerup block -/

theorem mgmtActive_self (p : PlayerInfo) (pus : List Powerup) (ents : List Portal)
    (dx dy : Int) (i : Nat) : (mgmtActive p pus ents dx dy i).self = p := by
  unfold mgmtActive
  dsimp only
  split
  · split
    · rfl
    · rfl
    · split
      · rfl
      · split <;> rfl
  · rfl

theorem mgmtActive_len (p : PlayerInfo) (pus : List Powerup) (ents : List Portal)
    (dx dy : Int) (i : Nat) :
    (mgmtActive p pus ents dx dy i).powerups.length = pus.length := by
  unfold mgmtActive
  dsimp only
  split
  · split
    · simp
    · simp
    · split
      · simp
      · split <;> simp
  · rfl

theorem mgmtActive_consumed (p : PlayerInfo) (pus : List Powerup) (ents : List Portal)
    (dx dy : Int) (i j : Nat) :
    ((mgmtActive p pus ents dx dy i).powerups.getD j dPU).consumed =
      (pus.getD j dPU).consumed := by
  unfold mgmtActive
  dsimp only
  split
  · split
    · exact proj_getD_set (fun q => q.consumed) _ _ _ _ (tick_consumed _)
    · exact proj_getD_set (fun q => q.consumed) _ _ _ _ (tick_consumed _)
    · split
      · exact (proj_getD_set (fun q => q.consumed) _ _ _ _ (tick_consumed _)).trans
          (proj_getD_set (fun q => q.consumed) _ _ _ _ (set_orange_consumed _ _))
      · split
        · exact (proj_getD_set (fun q => q.consumed) _ _ _ _ (tick_consumed _)).trans
            (proj_getD_set (fun q => q.consumed) _ _ _ _ (set_blue_consumed _ _))
        · exact proj_getD_set (fun q => q.consumed) _ _ _ _ (tick_consumed _)
  · rfl

theorem mgmtActive_position (p : PlayerInfo) (pus : List Powerup) (ents : List Portal)
    (dx dy : Int) (i j : Nat) :
    ((mgmtActive p pus ents dx dy i).powerups.getD j dPU).position =
      (pus.getD j dPU).position := by
  unfold mgmtActive
  dsimp only
  split
  · split
    · exact proj_getD_set (fun q => q.position) _ _ _ _ (tick_position _)
    · exact proj_getD_set (fun q => q.position) _ _ _ _ (tick_position _)
    · split
      · exact (proj_getD_set (fun q => q.position) _ _ _ _ (tick_position _)).trans
          (proj_getD_set (fun q => q.position) _ _ _ _ (set_orange_position _ _))
      · split
        · exact (proj_getD_set (fun q => q.position) _ _ _ _ (tick_position _)).trans
            (proj_getD_set (fun q => q.position) _ _ _ _ (set_blue_position _ _))
        · exact proj_getD_set (fun q => q.position) _ _ _ _ (tick_position _)
  · rfl

theorem mgmt_self_shape (p : PlayerInfo) (pus : List Powerup) (ents : List Portal)
    (dx dy : Int) :
    ∃ held mv, (mgmtPhase p pus ents dx dy).self = { p with powerup := held, moves := mv } ∧
      (held = p.powerup ∨ held = none) := by
  unfold mgmtPhase
  cases hp : p.powerup with
  | none =>
    refine ⟨none, p.moves, ?_, Or.inr rfl⟩
    conv_rhs => rw [← hp]
  | some i =>
    dsimp only
    have ha := mgmtActive_self p pus ents dx dy i
    split
    · split
      · exact ⟨none, 1, by rw [ha], Or.inr rfl⟩
      · exact ⟨none, p.moves, by rw [ha], Or.inr rfl⟩
    · exact ⟨some i, p.moves, by rw [ha, ← hp], Or.inl rfl⟩

theorem mgmt_len (p : PlayerInfo) (pus : List Powerup) (ents : List Portal)
    (dx dy : Int) :
    (mgmtPhase p pus ents dx dy).powerups.length = pus.length := by
  unfold mgmtPhase
  cases hp : p.powerup with
  | none => rfl
  | some i =>
    dsimp only
    split <;> exact mgmtActive_len p pus ents dx dy i

theorem mgmt_consumed (p : PlayerInfo) (pus : List Powerup) (ents : List Portal)
    (dx dy : Int) (j : Nat) :
    ((mgmtPhase p pus ents dx dy).powerups.getD j dPU).consumed =
      (pus.getD j dPU).consumed := by
  unfold mgmtPhase
  cases hp : p.powerup with
  | none => rfl
  | some i =>
    dsimp only
    split <;> exact mgmtActive_consumed p pus ents dx dy i j

theorem mgmt_position (p : PlayerInfo) (pus : List Powerup) (ents : List Portal)
    (dx dy : Int) (j : Nat) :
    ((mgmtPhase p pus ents dx dy).powerups.getD j dPU).position =
      (pus.getD j dPU).position := by
  unfold mgmtPhase
  cases hp : p.powerup with
  | none => rfl
  | some i =>
    dsimp only
    split <;> exact mgmtActive_position p pus ents dx dy i j

/-! ### Lemmas about the pickup loop -/

theorem pickup_fst_len (c : Cell) (j0 : Nat) (pus : List Powerup) (held : Option Nat) :
    (pickupLoop c j0 pus held).1.length = pus.length := by
  induction pus generalizing j0 held with
  | nil => rfl
  | cons pu rest ih =>
    unfold pickupLoop
    dsimp only
    split <;> simp [ih]

theorem pickup_fst_getD (c : Cell) (j0 : Nat) (pus : List Powerup) (held : Option Nat)
    (j : Nat) :
    (pickupLoop c j0 pus held).1.getD j dPU =
      if (pus.getD j dPU).position = c ∧ j < pus.length then (pus.getD j dPU).consume
      else pus.getD j dPU := by
  induction pus generalizing j0 held j with
  | nil => simp [pickupLoop]
  | cons pu rest ih =>
    unfold pickupLoop
    dsimp only
    split
    · next h =>
      cases j with
      | zero => simp [h]
      | succ j =>
        have he : (j + 1 < rest.length + 1) ↔ (j < rest.length) := by omega
        simp only [List.getD_cons_succ, List.length_cons, he]
        exact ih (j0 + 1) _ j
    · next h =>
      cases j with
      | zero => simp [h]
      | succ j =>
        have he : (j + 1 < rest.length + 1) ↔ (j < rest.length) := by omega
        simp only [List.getD_cons_succ, List.length_cons, he]
        exact ih (j0 + 1) _ j

theorem pickup_snd_cases (c : Cell) (j0 : Nat) (pus : List Powerup) (held : Option Nat) :
    (pickupLoop c j0 pus held).2 = held ∨
      (held = none ∧ ∃ k, k < pus.length ∧ (pickupLoop c j0 pus held).2 = some (j0 + k) ∧
        (pus.getD k dPU).position = c) := by
  induction pus generalizing j0 held with
  | nil => exact Or.inl rfl
  | cons pu rest ih =>
    unfold pickupLoop
    dsimp only
    split
    · next h =>
      cases held with
      | some k =>
        rcases ih (j0 + 1) (some k) with h1 | h1
        · exact Or.inl h1
        · exact absurd h1.1 (by simp)
      | none =>
        rcases ih (j0 + 1) (some j0) with h1 | h1
        · exact Or.inr ⟨rfl, 0, by simp, by simpa using h1, by simpa using h⟩
        · exact absurd h1.1 (by simp)
    · next h =>
      rcases ih (j0 + 1) held with h1 | h1
      · exact Or.inl h1
      · refine Or.inr ⟨h1.1, ?_⟩
        obtain ⟨k, hk, hsnd, hpos⟩ := h1.2
        exact ⟨k + 1, by simpa using Nat.succ_lt_succ hk,
          by rw [hsnd]; congr 1; omega, by simpa using hpos⟩

/-! ### Case analysis of one `move` sub-step -/

theorem move_eq_dead (p : PlayerInfo) (trails : List (List Cell)) (pus : List Powerup)
    (ents : List Portal) (hd : p.dead = true) :
    move p trails pus ents = ⟨p, pus, ents⟩ := by
  unfold move
  simp [hd]

theorem move_eq_death (p : PlayerInfo) (trails : List (List Cell)) (pus : List Powerup)
    (ents : List Portal) (hd : p.dead = false)
    (hl : lethalCheck { (mgmtOf p pus ents).self with
            direction := (remapOf (mgmtOf p pus ents)).2 } trails
          (candidateOf (mgmtOf p pus ents)) (remapOf (mgmtOf p pus ents)).1 = true) :
    move p trails pus ents =
      ⟨{ (mgmtOf p pus ents).self with
          direction := (remapOf (mgmtOf p pus ents)).2
          dead := true
          brightness := 0 },
        (mgmtOf p pus ents).powerups, (mgmtOf p pus ents).entities⟩ := by
  unfold move
  simp [hd, hl]

theorem move_eq_alive (p : PlayerInfo) (trails : List (List Cell)) (pus : List Powerup)
    (ents : List Portal) (hd : p.dead = false)
    (hl : lethalCheck { (mgmtOf p pus ents).self with
            direction := (remapOf (mgmtOf p pus ents)).2 } trails
          (candidateOf (mgmtOf p pus ents)) (remapOf (mgmtOf p pus ents)).1 = false) :
    move p trails pus ents =
      ⟨{ (mgmtOf p pus ents).self with
          direction := (remapOf (mgmtOf p pus ents)).2
          powerup := (pickupLoop (remapOf (mgmtOf p pus ents)).1 0
            (mgmtOf p pus ents).powerups (mgmtOf p pus ents).self.powerup).2
          trail := (mgmtOf p pus ents).self.trail ++ [(remapOf (mgmtOf p pus ents)).1]
          moved := false },
        (pickupLoop (remapOf (mgmtOf p pus ents)).1 0 (mgmtOf p pus ents).powerups
          (mgmtOf p pus ents).self.powerup).1,
        (mgmtOf p pus ents).entities⟩ := by
  unfold move
  simp [hd, hl]

/-- The value of the lethality test inside `move` for given inputs (the
condition of the kill branch). -/
def lethalOf (p : PlayerInfo) (trails : List (List Cell)) (pus : List Powerup)
    (ents : List Portal) : Bool :=
  lethalCheck { (mgmtOf p pus ents).self with direction := (remapOf (mgmtOf p pus ents)).2 }
    trails (candidateOf (mgmtOf p pus ents)) (remapOf (mgmtOf p pus ents)).1

theorem mgmtOf_self_shape (p : PlayerInfo) (pus : List Powerup) (ents : List Portal) :
    ∃ held mv, (mgmtOf p pus ents).self = { p with powerup := held, moves := mv } ∧
      (held = p.powerup ∨ held = none) :=
  mgmt_self_shape p pus ents _ _

theorem mgmtOf_len (p : PlayerInfo) (pus : List Powerup) (ents : List Portal) :
    (mgmtOf p pus ents).powerups.length = pus.length :=
  mgmt_len p pus ents _ _

theorem mgmtOf_consumed (p : PlayerInfo) (pus : List Powerup) (ents : List Portal) (j : Nat) :
    ((mgmtOf p pus ents).powerups.getD j dPU).consumed = (pus.getD j dPU).consumed :=
  mgmt_consumed p pus ents _ _ j

theorem mgmtOf_position (p : PlayerInfo) (pus : List Powerup) (ents : List Portal) (j : Nat) :
    ((mgmtOf p pus ents).powerups.getD j dPU).position = (pus.getD j dPU).position :=
  mgmt_position p pus ents _ _ j

/-- A killed sub-step: the mover keeps everything except a possibly
updated direction (portal remap), a possibly cleared/kept held-powerup
reference and move budget (powerup expiry), and gets `dead := true`,
`brightness := 0`; the powerup list is the one after the held-powerup
block (no pickups). -/
theorem move_player_death (p : PlayerInfo) (trails : List (List Cell)) (pus : List Powerup)
    (ents : List Portal) (hd : p.dead = false) (hl : lethalOf p trails pus ents = true) :
    ∃ held mv nd, (held = p.powerup ∨ held = none) ∧
      (move p trails pus ents).player =
        { p with
          powerup := held
          moves := mv
          direction := nd
          dead := true
          brightness := 0 } ∧
      (move p trails pus ents).powerups = (mgmtOf p pus ents).powerups ∧
      (move p trails pus ents).entities = (mgmtOf p pus ents).entities := by
  obtain ⟨held, mv, hs, hor⟩ := mgmtOf_self_shape p pus ents
  refine ⟨held, mv, (remapOf (mgmtOf p pus ents)).2, hor, ?_, ?_, ?_⟩
  · rw [move_eq_death p trails pus ents hd hl]
    dsimp only
    rw [hs]
  · rw [move_eq_death p trails pus ents hd hl]
  · rw [move_eq_death p trails pus ents hd hl]

/-- A surviving sub-step: the mover keeps everything except a possibly
updated direction, a held-powerup reference threaded through expiry and
pickup, a possibly updated move budget, the remapped candidate appended
to the trail, and a cleared `moved` flag; the powerup list is the
post-pickup one. -/
theorem move_player_alive (p : PlayerInfo) (trails : List (List Cell)) (pus : List Powerup)
    (ents : List Portal) (hd : p.dead = false) (hl : lethalOf p trails pus ents = false) :
    ∃ held mv nd, (held = p.powerup ∨ held = none) ∧
      (move p trails pus ents).player =
        { p with
          powerup := (pickupLoop (remapOf (mgmtOf p pus ents)).1 0
            (mgmtOf p pus ents).powerups held).2
          moves := mv
          direction := nd
          trail := p.trail ++ [(remapOf (mgmtOf p pus ents)).1]
          moved := false } ∧
      (move p trails pus ents).powerups =
        (pickupLoop (remapOf (mgmtOf p pus ents)).1 0 (mgmtOf p pus ents).powerups held).1 ∧
      (move p trails pus ents).entities = (mgmtOf p pus ents).entities := by
  obtain ⟨held, mv, hs, hor⟩ := mgmtOf_self_shape p pus ents
  have hheld : (mgmtOf p pus ents).self.powerup = held := by rw [hs]
  have htrail : (mgmtOf p pus ents).self.trail = p.trail := by rw [hs]
  refine ⟨held, mv, (remapOf (mgmtOf p pus ents)).2, hor, ?_, ?_, ?_⟩
  · rw [move_eq_alive p trails pus ents hd hl]
    dsimp only
    rw [hheld, htrail, hs]
  · rw [move_eq_alive p trails pus ents hd hl]
    dsimp only
    rw [hheld]
  · rw [move_eq_alive p trails pus ents hd hl]

theorem move_entities_eq (p : PlayerInfo) (trails : List (List Cell)) (pus : List Powerup)
    (ents : List Portal) (hd : p.dead = false) :
    (move p trails pus ents).entities = (mgmtOf p pus ents).entities := by
  cases hl : lethalOf p trails pus ents with
  | true => exact (move_player_death p trails pus ents hd hl).choose_spec.choose_spec
      |>.choose_spec.2.2.2
  | false => exact (move_player_alive p trails pus ents hd hl).choose_spec.choose_spec
      |>.choose_spec.2.2.2

/-- Under the hypotheses of an orange-portal deployment (held portal
powerup, primary side activated and not yet deployed), the held-powerup
block places the new orange portal entity 10 cells ahead of the player's
head, facing the player's direction, linked to the blue portal when one
exists. -/
theorem mgmtActive_entities_orange (p : PlayerInfo) (pus : List Powerup)
    (ents : List Portal) (dx dy : Int) (i : Nat)
    (hk : (pus.getD i dPU).kind = PKind.Portal)
    (ho : (pus.getD i dPU).orange_activated = true)
    (hnd : (pus.getD i dPU).orange_deployed = false) :
    (mgmtActive p pus ents dx dy i).entities =
      linkAt ents (pus.getD i dPU).blue_portal ents.length ++
        [{ x := p.position.1 + 10 * dx
           y := p.position.2 + 10 * dy
           direction := p.direction
           color := ORANGE
           other := (pus.getD i dPU).blue_portal }] := by
  have hact : (pus.getD i dPU).isActivated = true := by
    unfold Powerup.isActivated
    rw [hk, ho]
    simp
  have hexh : (pus.getD i dPU).exhausted = false := by
    unfold Powerup.exhausted
    rw [hk, hnd]
    simp
  unfold mgmtActive
  dsimp only
  repeat' split <;> simp_all

theorem mgmt_entities_of_held (p : PlayerInfo) (pus : List Powerup) (ents : List Portal)
    (dx dy : Int) (i : Nat) (hp : p.powerup = some i) :
    (mgmtPhase p pus ents dx dy).entities = (mgmtActive p pus ents dx dy i).entities := by
  unfold mgmtPhase
  rw [hp]
  dsimp only
  split <;> rfl

/-- The secondary (blue) deployment branch of the held-powerup block: it
is the `elif` of game.py lines 430-434, so it fires only when the orange
branch does not (orange not activated, or already deployed). -/
theorem mgmtActive_entities_blue (p : PlayerInfo) (pus : List Powerup)
    (ents : List Portal) (dx dy : Int) (i : Nat)
    (hk : (pus.getD i dPU).kind = PKind.Portal)
    (hb : (pus.getD i dPU).blue_activated = true)
    (hnd : (pus.getD i dPU).blue_deployed = false)
    (hno : (pus.getD i dPU).orange_activated = false ∨
      (pus.getD i dPU).orange_deployed = true) :
    (mgmtActive p pus ents dx dy i).entities =
      linkAt ents (pus.getD i dPU).orange_portal ents.length ++
        [{ x := p.position.1 + 10 * dx
           y := p.position.2 + 10 * dy
           direction := p.direction
           color := CYAN
           other := (pus.getD i dPU).orange_portal }] := by
  have hact : (pus.getD i dPU).isActivated = true := by
    unfold Powerup.isActivated
    rw [hk, hb]
    simp
  have hexh : (pus.getD i dPU).exhausted = false := by
    unfold Powerup.exhausted
    rw [hk, hnd]
    simp
  have hfirst : ((pus.getD i dPU).orange_activated &&
      !(pus.getD i dPU).orange_deployed) = false := by
    rcases hno with h | h
    · rw [h]
      rfl
    · rw [h]
      exact Bool.and_false _
  unfold mgmtActive
  dsimp only
  repeat' split <;> simp_all

/-- The held-powerup block either keeps the entity list or appends exactly
one freshly deployed portal to it. -/
theorem mgmtActive_entities_shape (p : PlayerInfo) (pus : List Powerup)
    (ents : List Portal) (dx dy : Int) (i : Nat) :
    (mgmtActive p pus ents dx dy i).entities = ents ∨
    ∃ l pr, (mgmtActive p pus ents dx dy i).entities = l ++ [pr] := by
  unfold mgmtActive
  dsimp only
  split
  · split
    · exact Or.inl rfl
    · exact Or.inl rfl
    · split
      · exact Or.inr ⟨_, _, rfl⟩
      · split
        · exact Or.inr ⟨_, _, rfl⟩
        · exact Or.inl rfl
  · exact Or.inl rfl

theorem mgmt_entities_shape (p : PlayerInfo) (pus : List Powerup) (ents : List Portal)
    (dx dy : Int) :
    (mgmtPhase p pus ents dx dy).entities = ents ∨
    ∃ l pr, (mgmtPhase p pus ents dx dy).entities = l ++ [pr] := by
  unfold mgmtPhase
  cases hp : p.powerup with
  | none => exact Or.inl rfl
  | some i =>
    dsimp only
    split
    · exact mgmtActive_entities_shape p pus ents dx dy i
    · exact mgmtActive_entities_shape p pus ents dx dy i

/-- If the held-powerup block ends with no entities, it started with none
(a deployment always leaves at least the new portal). -/
theorem mgmtOf_entities_nil (p : PlayerInfo) (pus : List Powerup) (ents : List Portal)
    (h : (mgmtOf p pus ents).entities = []) : ents = [] := by
  have h' : (mgmtPhase p pus ents (dir_to_dxdy p.direction).1
      (dir_to_dxdy p.direction).2).entities = [] := h
  rcases mgmt_entities_shape p pus ents (dir_to_dxdy p.direction).1
      (dir_to_dxdy p.direction).2 with h1 | ⟨l, pr, h1⟩
  · rw [h1] at h'
    exact h'
  · rw [h1] at h'
    exact absurd h' (by simp)

/-- With no entities, the portal-remap loop is the identity: the remapped
cell is the raw candidate and the direction is unchanged. -/
theorem remapOf_nil (m : MgmtOut) (h : m.entities = []) :
    remapOf m = (candidateOf m, m.self.direction) := by
  unfold remapOf
  rw [h]
  rfl

/-! ### Claim theorems -/

/-- Concrete fixture for C1: a portal powerup whose primary side has been
activated but not yet deployed, held (index 0) by a player at head
`(100, 10)` facing right. -/
def puC1 : Powerup := { mkPowerup 200 20 .Portal with consumed := true, orange_activated := true }

def pC1 : PlayerInfo := { mkPlayer 0 0 100 10 with powerup := some 0 }

/-- C1, counterexample.  The claim says the portal-deploying sub-step does
not change the player's position and appends no trail cell; in the code,
after deploying the orange portal at head + 10·displacement the same
`move` call still appends the candidate cell: the head moves from
`(100, 10)` to `(101, 10)`. -/
theorem c1_counterexample :
    pC1.position = (100, 10) ∧
    (move pC1 [pC1.trail] [puC1] []).player.position = (101, 10) ∧
    (move pC1 [pC1.trail] [puC1] []).player.trail = [(100, 10), (101, 10)] ∧
    (move pC1 [pC1.trail] [puC1] []).entities =
      [{ x := 110, y := 10, direction := Dir.r, color := ORANGE, other := none }] := by
  decide

/-- C1, amended.  A living player holding an activated, not-yet-deployed
Portal powerup deploys, in one movement sub-step, a new Portal entity at
`head + 10×displacement` facing the player's current direction — orange
for the primary side, cyan for the secondary side (which, being the
`elif`, fires only when the primary branch does not), in both cases
linked to the partner portal when it already exists — but the sub-step
also performs the normal movement: unless the player is killed, the
(possibly portal-remapped) candidate cell is appended to the trail in the
same sub-step, so the position does change. -/
theorem c1_portal_deploy (p : PlayerInfo) (trails : List (List Cell)) (pus : List Powerup)
    (ents : List Portal) (i : Nat)
    (hd : p.dead = false) (hp : p.powerup = some i)
    (hk : (pus.getD i dPU).kind = PKind.Portal) :
    ((pus.getD i dPU).orange_activated = true →
      (pus.getD i dPU).orange_deployed = false →
      (move p trails pus ents).entities =
        linkAt ents (pus.getD i dPU).blue_portal ents.length ++
          [{ x := p.position.1 + 10 * (dir_to_dxdy p.direction).1
             y := p.position.2 + 10 * (dir_to_dxdy p.direction).2
             direction := p.direction
             color := ORANGE
             other := (pus.getD i dPU).blue_portal }]) ∧
    ((pus.getD i dPU).blue_activated = true →
      (pus.getD i dPU).blue_deployed = false →
      ((pus.getD i dPU).orange_activated = false ∨
        (pus.getD i dPU).orange_deployed = true) →
      (move p trails pus ents).entities =
        linkAt ents (pus.getD i dPU).orange_portal ents.length ++
          [{ x := p.position.1 + 10 * (dir_to_dxdy p.direction).1
             y := p.position.2 + 10 * (dir_to_dxdy p.direction).2
             direction := p.direction
             color := CYAN
             other := (pus.getD i dPU).orange_portal }]) ∧
    ((move p trails pus ents).player.dead = false →
      (move p trails pus ents).player.trail =
        p.trail ++ [(remapOf (mgmtOf p pus ents)).1]) := by
  refine ⟨?_, ?_, ?_⟩
  · intro ho hnd
    rw [move_entities_eq p trails pus ents hd]
    rw [show (mgmtOf p pus ents).entities =
        (mgmtActive p pus ents (dir_to_dxdy p.direction).1 (dir_to_dxdy p.direction).2 i).entities
      from mgmt_entities_of_held p pus ents _ _ i hp]
    exact mgmtActive_entities_orange p pus ents _ _ i hk ho hnd
  · intro hb hnd hno
    rw [move_entities_eq p trails pus ents hd]
    rw [show (mgmtOf p pus ents).entities =
        (mgmtActive p pus ents (dir_to_dxdy p.direction).1 (dir_to_dxdy p.direction).2 i).entities
      from mgmt_entities_of_held p pus ents _ _ i hp]
    exact mgmtActive_entities_blue p pus ents _ _ i hk hb hnd hno
  · intro hda
    cases hl : lethalOf p trails pus ents with
    | true =>
      obtain ⟨held, mv, nd, _, hpl, _⟩ := move_player_death p trails pus ents hd hl
      rw [hpl] at hda
      simp at hda
    | false =>
      obtain ⟨held, mv, nd, _, hpl, _⟩ := move_player_alive p trails pus ents hd hl
      rw [hpl]

/-- Concrete fixture for C3: two linked portals, A at `(10, 10)` facing
right (index 0), B at `(40, 10)` facing left (index 1). -/
def portalA : Portal := { x := 10, y := 10, direction := .r, color := ORANGE, other := some 1 }

def portalB : Portal := { x := 40, y := 10, direction := .l, color := CYAN, other := some 0 }

def entsAB : List Portal := [portalA, portalB]

/-- The same two linked portals with B listed first (index 0) and A second
(index 1), as when B was deployed before A. -/
def portalA2 : Portal := { x := 10, y := 10, direction := .r, color := ORANGE, other := some 0 }

def portalB2 : Portal := { x := 40, y := 10, direction := .l, color := CYAN, other := some 1 }

def entsBA : List Portal := [portalB2, portalA2]

/-- C3, counterexample.  A player moving right whose candidate cell is
A's center is remapped by `calculate_path` to B's span at the matching
index, but exits moving **right** (`(1, 0)`), not left: with entry
direction = A's facing, the code computes
`num_to_dir(dir_to_num(B) + 0 + 2) = num_to_dir(3 + 2) = 'r'`. -/
theorem c3_counterexample :
    (portalA.calculate_path entsAB (10, 10) 1 0).1 = (40, 10) ∧
    (portalA.calculate_path entsAB (10, 10) 1 0).2 = (1, 0) ∧
    ¬ (portalA.calculate_path entsAB (10, 10) 1 0).2 = (-1, 0) := by
  decide

/-- C3, amended.  For the linked portals A (facing right, at `(10, 10)`)
and B (facing left, at `(40, 10)`), the single-portal remap
`calculate_path` sends a player moving right entering any of the 5 cells
of A's span to the cell of B's ordered span at the same index — exiting
moving **right** (the 180°-rotation of B's facing), not left as the spec
claims.  Moreover the entity loop of `move` keeps testing later entities
against the updated candidate, so the full loop lands the player in B's
span (still moving right) only when B precedes A in the entity list; when
B follows A, the B-side cell is immediately remapped back through B to
the original entry cell. -/
theorem c3_portal_remap :
    ∀ k, k < 5 →
      ((portalA.calculate_path entsAB (portalA.points.getD k (0, 0)) 1 0).1 =
        portalB.points.getD k (0, 0) ∧
      (portalA.calculate_path entsAB (portalA.points.getD k (0, 0)) 1 0).2 = (1, 0)) ∧
      remapLoop entsAB 1 0 entsAB (portalA.points.getD k (0, 0), Dir.r) =
        (portalA.points.getD k (0, 0), Dir.r) ∧
      remapLoop entsBA 1 0 entsBA (portalA2.points.getD k (0, 0), Dir.r) =
        (portalB2.points.getD k (0, 0), Dir.r) := by
  decide

/-- C3, witness for the amended theorem at span index 0. -/
theorem c3_witness :
    ((portalA.calculate_path entsAB (portalA.points.getD 0 (0, 0)) 1 0).1 =
      portalB.points.getD 0 (0, 0) ∧
    (portalA.calculate_path entsAB (portalA.points.getD 0 (0, 0)) 1 0).2 = (1, 0)) ∧
    remapLoop entsAB 1 0 entsAB (portalA.points.getD 0 (0, 0), Dir.r) =
      (portalA.points.getD 0 (0, 0), Dir.r) ∧
    remapLoop entsBA 1 0 entsBA (portalA2.points.getD 0 (0, 0), Dir.r) =
      (portalB2.points.getD 0 (0, 0), Dir.r) :=
  c3_portal_remap 0 (by decide)

/-- Concrete fixture for C4/C8 style counterexamples: a freshly joined
player at `(100, 10)`, facing right, with no turn yet accepted this tick. -/
def pT : PlayerInfo := mkPlayer 9 0 100 10

/-- C4, counterexample.  Issuing `left` then `up` in the same tick while
moving right is **not** the same as issuing only `left`: the `left`
request reverses the heading and is ignored without consuming the tick's
turn, so the subsequent `up` request is accepted. -/
theorem c4_counterexample :
    pT.direction = Dir.r ∧ pT.moved = false ∧
    (applyTurn .l pT).direction = Dir.r ∧ (applyTurn .l pT).moved = false ∧
    (applyTurn .u (applyTurn .l pT)).direction = Dir.u ∧
    ¬ applyTurn .u (applyTurn .l pT) = applyTurn .l pT := by
  refine ⟨by decide, by decide, by decide, by decide, by decide, fun h => ?_⟩
  have hdir := congrArg PlayerInfo.direction h
  revert hdir
  decide

/-- Once a player's per-tick turn flag is set, every further turn request
is a no-op. -/
theorem applyTurn_moved_noop (q : PlayerInfo) (req : TurnReq) (hm : q.moved = true) :
    applyTurn req q = q := by
  cases req <;> unfold applyTurn <;> split <;> simp [hm]

/-- C4, amended.  At most one direction change is *accepted* per
turn-window: whenever the first request is accepted (or a turn was
already consumed) — i.e. the `moved` flag is set after the first request —
every second request in the same window is ignored, so issuing both
equals issuing only the first.  (If the first request is itself ignored,
e.g. a heading reversal, a second request may still be accepted; and the
window is one movement sub-step, since `move` clears `moved`, so under
Speed each of the two sub-steps opens a fresh window.) -/
theorem c4_turn_debounce (p : PlayerInfo) (r₁ r₂ : TurnReq)
    (h : (applyTurn r₁ p).moved = true) :
    applyTurn r₂ (applyTurn r₁ p) = applyTurn r₁ p :=
  applyTurn_moved_noop _ r₂ h

/-- C4, witness: an accepted `up` followed by `left` equals `up` alone. -/
theorem c4_witness : applyTurn .l (applyTurn .u pT) = applyTurn .u pT :=
  c4_turn_debounce pT .u .l (by decide)

/-- Concrete fixture for C6: a dead player whose trail has 90 cells at the
start of decay. -/
def trail90 : List Cell := (List.range 90).map (fun n => ((n : Int), 0))

def p90 : PlayerInfo := { mkPlayer 3 0 9 9 with dead := true, trail := trail90, maxlen := 0 }

set_option maxRecDepth 16000 in
/-- C6, confirmed.  For a dead player with trail length 90 at the first
decay step, every `nom` removes exactly `max(90 / 30, 1) = 3` cells
(trail length after `k` steps is `90 - 3k`), the trail is empty after
exactly 30 steps and still non-empty after 29, and the chunk size is
computed from the length at the first step and memoized in `maxlen`. -/
theorem c6_decay :
    (PlayerInfo.nom^[30] p90).trail = [] ∧
    ¬ (PlayerInfo.nom^[29] p90).trail = [] ∧
    (∀ k, k ≤ 30 → (PlayerInfo.nom^[k] p90).trail.length = 90 - 3 * k) ∧
    (∀ k, 1 ≤ k → k ≤ 30 → (PlayerInfo.nom^[k] p90).maxlen = 90) := by
  decide

/-- C6, witness: one decay step removes exactly 3 cells. -/
theorem c6_witness : (PlayerInfo.nom^[1] p90).trail.length = 90 - 3 * 1 :=
  c6_decay.2.2.1 1 (by decide)

/-- C8, counterexample.  The claim says a spawn at `x ≥ width/2` faces
left; at the midpoint `x = 256 = 512/2` the code's strict test
`x > WIDTH // 2` fails and the player faces right. -/
theorem c8_counterexample :
    WIDTH / 2 ≤ (256 : Int) ∧
    ((mkPlayer 0 0 0 0).reset 256 5).direction = Dir.r ∧
    ¬ ((mkPlayer 0 0 0 0).reset 256 5).direction = Dir.l := by
  decide

/-- C8, amended.  On every spawn (both the join constructor and a round
reset) the player faces left exactly when the spawn x-coordinate is
**strictly** greater than `WIDTH / 2` (so at `x = WIDTH / 2` it faces
right), and faces right otherwise. -/
theorem c8_spawn_facing (p : PlayerInfo) (b c : Nat) (sx sy : Int) :
    ((p.reset sx sy).direction = Dir.l ↔ WIDTH / 2 < sx) ∧
    ((mkPlayer b c sx sy).direction = Dir.l ↔ WIDTH / 2 < sx) := by
  constructor
  · unfold PlayerInfo.reset
    dsimp only
    split <;> simp_all
  · unfold mkPlayer PlayerInfo.reset
    dsimp only
    split <;> simp_all

/-- C9, confirmed.  At the end of a round each survivor's `wins` is
incremented (a dead player's is unchanged), everyone's `plays` is
incremented, and the subsequent `reset` puts the trail at exactly the
fresh spawn cell, clears the held powerup and the move budget, while the
identity (`badge_id`), `color`, and the updated `wins`/`plays` counters
are preserved. -/
theorem c9_round_end (p : PlayerInfo) (c : Cell) :
    (endRoundPlayer p c).wins = (if p.dead = true then p.wins else p.wins + 1) ∧
    (endRoundPlayer p c).plays = p.plays + 1 ∧
    (endRoundPlayer p c).badge_id = p.badge_id ∧
    (endRoundPlayer p c).color = p.color ∧
    (endRoundPlayer p c).trail = [c] ∧
    (endRoundPlayer p c).powerup = none ∧
    (endRoundPlayer p c).moves = 1 :=
  ⟨rfl, rfl, rfl, rfl, rfl, rfl, rfl⟩

/-- C10, confirmed.  A lethal sub-step of a living player is atomic: the
kill changes only `dead` (to true) and `brightness` (to 0); the mover's
trail is unchanged (no candidate cell is appended), no powerup is
consumed or granted (the pickup phase does not run, so every powerup's
`consumed` flag is exactly what the held-powerup block left, i.e.
unchanged), and the held-powerup reference is at most cleared by expiry,
never newly granted.  (All other identity and stat fields are unchanged.) -/
theorem c10_kill_atomic (p : PlayerInfo) (trails : List (List Cell)) (pus : List Powerup)
    (ents : List Portal) (hd : p.dead = false)
    (hk : (move p trails pus ents).player.dead = true) :
    (move p trails pus ents).player.brightness = 0 ∧
    (move p trails pus ents).player.trail = p.trail ∧
    (move p trails pus ents).player.wins = p.wins ∧
    (move p trails pus ents).player.plays = p.plays ∧
    (move p trails pus ents).player.badge_id = p.badge_id ∧
    (move p trails pus ents).player.color = p.color ∧
    (move p trails pus ents).player.maxlen = p.maxlen ∧
    (move p trails pus ents).player.moved = p.moved ∧
    (∀ j, ((move p trails pus ents).powerups.getD j dPU).consumed =
      (pus.getD j dPU).consumed) ∧
    ((move p trails pus ents).player.powerup = p.powerup ∨
      (move p trails pus ents).player.powerup = none) := by
  cases hl : lethalOf p trails pus ents with
  | false =>
    obtain ⟨held, mv, nd, _, hpl, _⟩ := move_player_alive p trails pus ents hd hl
    rw [hpl] at hk
    simp [hd] at hk
  | true =>
    obtain ⟨held, mv, nd, hor, hpl, hpus, _⟩ := move_player_death p trails pus ents hd hl
    rw [hpl, hpus]
    refine ⟨rfl, rfl, rfl, rfl, rfl, rfl, rfl, rfl, ?_, ?_⟩
    · intro j
      exact mgmtOf_consumed p pus ents j
    · simpa using hor

/-- C10, witness: a lethal sub-step at the left wall (player at `(0, 16)`
moving left), with an unrelated powerup present. -/
def pL : PlayerInfo := { mkPlayer 2 0 0 16 with direction := Dir.l }

theorem c10_witness :
    (move pL [pL.trail] [mkPowerup 50 5 .Jump] []).player.brightness = 0 ∧
    (move pL [pL.trail] [mkPowerup 50 5 .Jump] []).player.trail = pL.trail := by
  have h := c10_kill_atomic pL [pL.trail] [mkPowerup 50 5 .Jump] [] (by decide) (by decide)
  exact ⟨h.1, h.2.1⟩

/-- Concrete fixture for the blue side of C1: a portal powerup whose
secondary side has been activated (and the primary has not). -/
def puC1b : Powerup := { mkPowerup 200 20 .Portal with consumed := true, blue_activated := true }

def pC1b : PlayerInfo := { mkPlayer 4 0 100 10 with powerup := some 0 }

/-- C1, witness for the amended theorem at concrete fixtures, covering
both the primary (orange) and the secondary (blue) deployment. -/
theorem c1_witness :
    ((move pC1 [pC1.trail] [puC1] []).entities =
      linkAt ([] : List Portal) ([puC1].getD 0 dPU).blue_portal 0 ++
        [{ x := pC1.position.1 + 10 * (dir_to_dxdy pC1.direction).1
           y := pC1.position.2 + 10 * (dir_to_dxdy pC1.direction).2
           direction := pC1.direction
           color := ORANGE
           other := ([puC1].getD 0 dPU).blue_portal }] ∧
    (move pC1 [pC1.trail] [puC1] []).player.trail =
      pC1.trail ++ [(remapOf (mgmtOf pC1 [puC1] [])).1]) ∧
    (move pC1b [pC1b.trail] [puC1b] []).entities =
      linkAt ([] : List Portal) ([puC1b].getD 0 dPU).orange_portal 0 ++
        [{ x := pC1b.position.1 + 10 * (dir_to_dxdy pC1b.direction).1
           y := pC1b.position.2 + 10 * (dir_to_dxdy pC1b.direction).2
           direction := pC1b.direction
           color := CYAN
           other := ([puC1b].getD 0 dPU).orange_portal }] := by
  have h := c1_portal_deploy pC1 [pC1.trail] [puC1] [] 0 (by decide) (by decide) (by decide)
  have hb := c1_portal_deploy pC1b [pC1b.trail] [puC1b] [] 0 (by decide) (by decide)
    (by decide)
  exact ⟨⟨h.1 (by decide) (by decide), h.2.2 (by decide)⟩,
    hb.2.1 (by decide) (by decide) (Or.inl (by decide))⟩

/-! ### The Speed powerup lifecycle (C5) -/

theorem tick_ticks_of_ne (q : Powerup) (h : q.ticks ≠ 0) : q.tick.ticks = q.ticks - 1 := by
  unfold Powerup.tick
  rw [if_neg (by simp [h])]

/-- Behaviour of the held-powerup block for an activated, unexpired Speed
powerup: the displacement is untouched and the powerup just ticks. -/
theorem mgmtActive_speed (p : PlayerInfo) (pus : List Powerup) (ents : List Portal)
    (dx dy : Int) (i : Nat)
    (hk : (pus.getD i dPU).kind = PKind.Speed)
    (ha : (pus.getD i dPU).activated = true)
    (ht : (pus.getD i dPU).ticks ≠ 0) :
    mgmtActive p pus ents dx dy i =
      ⟨p, pus.set i ((pus.getD i dPU).tick), ents, dx, dy⟩ := by
  have hact : (pus.getD i dPU).isActivated = true := by
    unfold Powerup.isActivated
    rw [hk]
    exact ha
  have hexh : (pus.getD i dPU).exhausted = false := by
    unfold Powerup.exhausted
    rw [hk]
    simp only [beq_eq_false_iff_ne, ne_eq]
    exact ht
  unfold mgmtActive
  dsimp only
  repeat' split <;> simp_all

/-- The full held-powerup block for an activated Speed powerup with at
least 2 remaining ticks: it ticks and remains held. -/
theorem mgmt_speed_run (p : PlayerInfo) (pus : List Powerup) (ents : List Portal)
    (dx dy : Int) (i : Nat)
    (hp : p.powerup = some i) (hi : i < pus.length)
    (hk : (pus.getD i dPU).kind = PKind.Speed)
    (ha : (pus.getD i dPU).activated = true)
    (ht : 2 ≤ (pus.getD i dPU).ticks) :
    mgmtPhase p pus ents dx dy =
      ⟨p, pus.set i ((pus.getD i dPU).tick), ents, dx, dy⟩ := by
  have hgd : (pus.set i ((pus.getD i dPU).tick)).getD i dPU = (pus.getD i dPU).tick := by
    rw [getD_set]
    simp [hi]
  have hexh2 : ((pus.getD i dPU).tick).exhausted = false := by
    unfold Powerup.exhausted
    rw [tick_kind, hk, tick_ticks_of_ne (pus.getD i dPU) (by omega)]
    simp only [beq_eq_false_iff_ne, ne_eq]
    omega
  unfold mgmtPhase
  rw [hp]
  dsimp only
  rw [mgmtActive_speed p pus ents dx dy i hk ha (by omega)]
  dsimp only
  rw [hgd, hexh2]
  simp

/-- The full held-powerup block for an activated Speed powerup on its
last tick: it ticks to zero, the expiry hook resets `moves` to 1, and the
reference is dropped. -/
theorem mgmt_speed_done (p : PlayerInfo) (pus : List Powerup) (ents : List Portal)
    (dx dy : Int) (i : Nat)
    (hp : p.powerup = some i) (hi : i < pus.length)
    (hk : (pus.getD i dPU).kind = PKind.Speed)
    (ha : (pus.getD i dPU).activated = true)
    (ht : (pus.getD i dPU).ticks = 1) :
    mgmtPhase p pus ents dx dy =
      ⟨{ p with moves := 1, powerup := none },
        pus.set i ((pus.getD i dPU).tick), ents, dx, dy⟩ := by
  have hgd : (pus.set i ((pus.getD i dPU).tick)).getD i dPU = (pus.getD i dPU).tick := by
    rw [getD_set]
    simp [hi]
  have hexh2 : ((pus.getD i dPU).tick).exhausted = true := by
    unfold Powerup.exhausted
    rw [tick_kind, hk, tick_ticks_of_ne (pus.getD i dPU) (by omega), ht]
    rfl
  have hkk : ((pus.getD i dPU).tick).kind = PKind.Speed := by rw [tick_kind, hk]
  unfold mgmtPhase
  rw [hp]
  dsimp only
  rw [mgmtActive_speed p pus ents dx dy i hk ha (by omega)]
  dsimp only
  rw [hgd, hexh2, hkk]
  simp

theorem pickup_snd_some (c : Cell) (j0 : Nat) (pus : List Powerup) (k : Nat) :
    (pickupLoop c j0 pus (some k)).2 = some k := by
  rcases pickup_snd_cases c j0 pus (some k) with h | h
  · exact h
  · exact absurd h.1 (by simp)

/-- One surviving-or-killed sub-step of a player holding an activated
Speed powerup with at least two ticks left: the powerup stays held,
`moves` is unchanged, and the tick counter decrements by one. -/
theorem speed_move_step (p : PlayerInfo) (trails : List (List Cell)) (pus : List Powerup)
    (ents : List Portal) (i : Nat)
    (hd : p.dead = false) (hp : p.powerup = some i) (hi : i < pus.length)
    (hk : (pus.getD i dPU).kind = PKind.Speed)
    (ha : (pus.getD i dPU).activated = true)
    (ht : 2 ≤ (pus.getD i dPU).ticks) :
    (move p trails pus ents).player.powerup = some i ∧
    (move p trails pus ents).player.moves = p.moves ∧
    (move p trails pus ents).powerups.length = pus.length ∧
    ((move p trails pus ents).powerups.getD i dPU).kind = PKind.Speed ∧
    ((move p trails pus ents).powerups.getD i dPU).activated = true ∧
    ((move p trails pus ents).powerups.getD i dPU).ticks = (pus.getD i dPU).ticks - 1 := by
  have hm : mgmtOf p pus ents =
      ⟨p, pus.set i ((pus.getD i dPU).tick), ents,
        (dir_to_dxdy p.direction).1, (dir_to_dxdy p.direction).2⟩ :=
    mgmt_speed_run p pus ents _ _ i hp hi hk ha ht
  have hgd : ((pus.set i ((pus.getD i dPU).tick)).getD i dPU) = (pus.getD i dPU).tick := by
    rw [getD_set]
    simp [hi]
  have htk : ((pus.getD i dPU).tick).kind = PKind.Speed := by rw [tick_kind, hk]
  have hta : ((pus.getD i dPU).tick).activated = true := by rw [tick_activated, ha]
  have htt : ((pus.getD i dPU).tick).ticks = (pus.getD i dPU).ticks - 1 :=
    tick_ticks_of_ne _ (by omega)
  cases hl : lethalOf p trails pus ents with
  | true =>
    rw [move_eq_death p trails pus ents hd hl, hm]
    dsimp only
    refine ⟨hp, rfl, by simp, ?_, ?_, ?_⟩
    · rw [hgd, htk]
    · rw [hgd, hta]
    · rw [hgd, htt]
  | false =>
    rw [move_eq_alive p trails pus ents hd hl]
    generalize (remapOf (mgmtOf p pus ents)).1 = rmc
    rw [hm]
    dsimp only
    rw [hp]
    refine ⟨pickup_snd_some _ _ _ _, rfl, ?_, ?_, ?_, ?_⟩
    · rw [pickup_fst_len]
      simp
    · rw [pickup_fst_getD]
      split
      · rw [consume_kind, hgd, htk]
      · rw [hgd, htk]
    · rw [pickup_fst_getD]
      split
      · rw [consume_activated, hgd, hta]
      · rw [hgd, hta]
    · rw [pickup_fst_getD]
      split
      · rw [consume_ticks, hgd, htt]
      · rw [hgd, htt]

/-- The last sub-step of an activated Speed powerup (one tick left): the
expiry hook resets `moves` to 1 and drops the held reference; when no
powerup sits on the landing cell, the player ends the sub-step holding
nothing. -/
theorem speed_move_last (p : PlayerInfo) (trails : List (List Cell)) (pus : List Powerup)
    (ents : List Portal) (i : Nat)
    (hd : p.dead = false) (hp : p.powerup = some i) (hi : i < pus.length)
    (hk : (pus.getD i dPU).kind = PKind.Speed)
    (ha : (pus.getD i dPU).activated = true)
    (ht1 : (pus.getD i dPU).ticks = 1)
    (hnp : ∀ q ∈ pus, q.position ≠ (remapOf (mgmtOf p pus ents)).1) :
    (move p trails pus ents).player.moves = 1 ∧
    (move p trails pus ents).player.powerup = none := by
  have hm : mgmtOf p pus ents =
      ⟨{ p with moves := 1, powerup := none }, pus.set i ((pus.getD i dPU).tick), ents,
        (dir_to_dxdy p.direction).1, (dir_to_dxdy p.direction).2⟩ :=
    mgmt_speed_done p pus ents _ _ i hp hi hk ha ht1
  cases hl : lethalOf p trails pus ents with
  | true =>
    rw [move_eq_death p trails pus ents hd hl, hm]
    exact ⟨rfl, rfl⟩
  | false =>
    rw [move_eq_alive p trails pus ents hd hl]
    generalize hrm : (remapOf (mgmtOf p pus ents)).1 = rmc at hnp ⊢
    rw [hm]
    dsimp only
    refine ⟨rfl, ?_⟩
    rcases pickup_snd_cases rmc 0 (pus.set i ((pus.getD i dPU).tick)) none with h | h
    · exact h
    · obtain ⟨_, k, hklt, _, hkpos⟩ := h
      exfalso
      have hlen : k < pus.length := by simpa using hklt
      have hpos2 : ((pus.set i ((pus.getD i dPU).tick)).getD k dPU).position =
          (pus.getD k dPU).position :=
        proj_getD_set (fun q => q.position) pus i k _ (tick_position _)
      exact hnp (pus.getD k dPU) (getD_mem pus k dPU hlen) (by rw [← hpos2, hkpos])

/-- The trace of repeated movement sub-steps of one player, with
per-sub-step environments: `tr k` is the list of all trails and `en k`
the entity list seen by the `k`-th call of `move`; the player's own state
and the powerup list are threaded through. -/
def speedRun (tr : Nat → List (List Cell)) (en : Nat → List Portal)
    (p0 : PlayerInfo) (pus0 : List Powerup) : Nat → PlayerInfo × List Powerup
  | 0 => (p0, pus0)
  | k + 1 =>
    let st := speedRun tr en p0 pus0 k
    let r := move st.1 (tr k) st.2 (en k)
    (r.player, r.powerups)

theorem speedRun_inv (tr : Nat → List (List Cell)) (en : Nat → List Portal)
    (p0 : PlayerInfo) (pus0 : List Powerup) (i : Nat)
    (hp : p0.powerup = some i) (hm2 : p0.moves = 2) (hi : i < pus0.length)
    (hk : (pus0.getD i dPU).kind = PKind.Speed)
    (ha : (pus0.getD i dPU).activated = true)
    (ht : (pus0.getD i dPU).ticks = 30)
    (halive : ∀ m, m < 30 → (speedRun tr en p0 pus0 m).1.dead = false) :
    ∀ k, k ≤ 29 →
      (speedRun tr en p0 pus0 k).1.powerup = some i ∧
      (speedRun tr en p0 pus0 k).1.moves = 2 ∧
      (speedRun tr en p0 pus0 k).2.length = pus0.length ∧
      ((speedRun tr en p0 pus0 k).2.getD i dPU).kind = PKind.Speed ∧
      ((speedRun tr en p0 pus0 k).2.getD i dPU).activated = true ∧
      ((speedRun tr en p0 pus0 k).2.getD i dPU).ticks = 30 - k := by
  intro k
  induction k with
  | zero =>
    intro _
    refine ⟨hp, hm2, rfl, hk, ha, ?_⟩
    show (pus0.getD i dPU).ticks = 30 - 0
    rw [ht]
  | succ k ih =>
    intro hk29
    obtain ⟨h1, h2, h3, h4, h5, h6⟩ := ih (by omega)
    have hstep := speed_move_step (speedRun tr en p0 pus0 k).1 (tr k)
      (speedRun tr en p0 pus0 k).2 (en k) i (halive k (by omega)) h1
      (by rw [h3]; exact hi) h4 h5 (by rw [h6]; omega)
    simp only [speedRun]
    refine ⟨hstep.1, ?_, ?_, hstep.2.2.2.1, hstep.2.2.2.2.1, ?_⟩
    · rw [hstep.2.1, h2]
    · rw [hstep.2.2.1, h3]
    · rw [hstep.2.2.2.2.2, h6]
      omega

/-- C5, confirmed.  A player that has just activated a held Speed powerup
(`moves = 2`, powerup index `i` activated with 30 ticks) keeps
`moves = 2` and the held reference for exactly the next 30 movement
resolution sub-steps (whatever trails/entities each sub-step sees,
provided the player survives them); during the 30th sub-step the counter
reaches zero, `moves` reverts to 1 and the held reference is cleared
(assuming no fresh powerup lies on the 30th landing cell, which would
start a new pickup). -/
theorem c5_speed_duration (tr : Nat → List (List Cell)) (en : Nat → List Portal)
    (p0 : PlayerInfo) (pus0 : List Powerup) (i : Nat)
    (hp : p0.powerup = some i) (hm2 : p0.moves = 2) (hi : i < pus0.length)
    (hk : (pus0.getD i dPU).kind = PKind.Speed)
    (ha : (pus0.getD i dPU).activated = true)
    (ht : (pus0.getD i dPU).ticks = 30)
    (halive : ∀ m, m < 30 → (speedRun tr en p0 pus0 m).1.dead = false)
    (hnopick : ∀ q ∈ (speedRun tr en p0 pus0 29).2,
      q.position ≠ (remapOf (mgmtOf (speedRun tr en p0 pus0 29).1
        (speedRun tr en p0 pus0 29).2 (en 29))).1) :
    (∀ k, k < 30 → (speedRun tr en p0 pus0 k).1.moves = 2 ∧
      (speedRun tr en p0 pus0 k).1.powerup = some i) ∧
    (speedRun tr en p0 pus0 30).1.moves = 1 ∧
    (speedRun tr en p0 pus0 30).1.powerup = none := by
  have hinv := speedRun_inv tr en p0 pus0 i hp hm2 hi hk ha ht halive
  constructor
  · intro k hklt
    obtain ⟨h1, h2, _⟩ := hinv k (by omega)
    exact ⟨h2, h1⟩
  · obtain ⟨h1, h2, h3, h4, h5, h6⟩ := hinv 29 (by omega)
    have hlast := speed_move_last (speedRun tr en p0 pus0 29).1 (tr 29)
      (speedRun tr en p0 pus0 29).2 (en 29) i (halive 29 (by omega)) h1
      (by rw [h3]; exact hi) h4 h5 (by rw [h6]) hnopick
    show (speedRun tr en p0 pus0 (29 + 1)).1.moves = 1 ∧
      (speedRun tr en p0 pus0 (29 + 1)).1.powerup = none
    simp only [speedRun]
    exact hlast

/-- Concrete fixture for the C5 witness: a player at `(0, 16)` moving
right on an empty board, having just activated a Speed powerup. -/
def p5 : PlayerInfo := { mkPlayer 1 0 0 16 with powerup := some 0, moves := 2 }

def pus5 : List Powerup := [{ mkPowerup 400 16 .Speed with consumed := true, activated := true }]

def trEmpty : Nat → List (List Cell) := fun _ => []

def enEmpty : Nat → List Portal := fun _ => []

set_option maxRecDepth 16000 in
/-- C5, witness: the concrete run keeps `moves = 2` through sub-step 29
and reverts at sub-step 30 with the held powerup cleared. -/
theorem c5_witness :
    (speedRun trEmpty enEmpty p5 pus5 29).1.moves = 2 ∧
    (speedRun trEmpty enEmpty p5 pus5 29).1.powerup = some 0 ∧
    (speedRun trEmpty enEmpty p5 pus5 30).1.moves = 1 ∧
    (speedRun trEmpty enEmpty p5 pus5 30).1.powerup = none := by
  have h := c5_speed_duration trEmpty enEmpty p5 pus5 0 (by decide) (by decide) (by decide)
    (by decide) (by decide) (by decide) (by decide) (by decide)
  exact ⟨(h.1 29 (by decide)).1, (h.1 29 (by decide)).2, h.2.1, h.2.2⟩

/-! ### Preservation of the reachability invariant -/

theorem getD_set_self (l : List α) (i k : Nat) (d : α) :
    (l.set i (l.getD i d)).getD k d = l.getD k d := by
  rw [getD_set]
  split
  · next h => obtain ⟨rfl, _⟩ := h; rfl
  · rfl

/-- The predicate `playerOK` only looks at `torus`, `invincible`, `dead`,
`trail` and `powerup`, so it transfers along equality of those fields. -/
theorem playerOK_of_fields (pus : List Powerup) (p q : PlayerInfo)
    (ht : q.torus = p.torus) (hv : q.invincible = p.invincible)
    (hd : q.dead = p.dead) (htr : q.trail = p.trail) (hpu : q.powerup = p.powerup) :
    playerOK pus p → playerOK pus q := by
  intro hok
  obtain ⟨h1, h2, h3, h4⟩ := hok
  refine ⟨by rw [ht, h1], by rw [hv, h2], ?_, ?_⟩
  · intro hq
    rw [htr]
    exact h3 (by rw [← hd, hq])
  · intro j hj
    rw [htr]
    exact h4 j (by rw [← hpu, hj])

/-- The predicate `playerOK` transfers to a new powerup list that is at
least as long,
preserves the positions of the old entries and only ever turns their
`consumed` flag on. -/
theorem playerOK_transfer (pus pus' : List Powerup) (p : PlayerInfo)
    (hlen : pus.length ≤ pus'.length)
    (hcons : ∀ j, j < pus.length → (pus.getD j dPU).consumed = true →
      (pus'.getD j dPU).consumed = true)
    (hpos : ∀ j, j < pus.length →
      (pus'.getD j dPU).position = (pus.getD j dPU).position) :
    playerOK pus p → playerOK pus' p := by
  intro hok
  obtain ⟨h1, h2, h3, h4⟩ := hok
  refine ⟨h1, h2, h3, ?_⟩
  intro j hj
  obtain ⟨hj1, hj2, hj3⟩ := h4 j hj
  exact ⟨by omega, hcons j hj1 hj2, by rw [hpos j hj1]; exact hj3⟩

theorem pickup_consumed_mono (c : Cell) (pus : List Powerup) (held : Option Nat) (j : Nat)
    (h : (pus.getD j dPU).consumed = true) :
    ((pickupLoop c 0 pus held).1.getD j dPU).consumed = true := by
  rw [pickup_fst_getD]
  split
  · rfl
  · exact h

theorem pickup_position (c : Cell) (pus : List Powerup) (held : Option Nat) (j : Nat) :
    ((pickupLoop c 0 pus held).1.getD j dPU).position = (pus.getD j dPU).position := by
  rw [pickup_fst_getD]
  split
  · exact consume_position _
  · rfl

theorem pickup_consumed_of_match (c : Cell) (pus : List Powerup) (held : Option Nat) (j : Nat)
    (hj : j < pus.length) (h : (pus.getD j dPU).position = c) :
    ((pickupLoop c 0 pus held).1.getD j dPU).consumed = true := by
  rw [pickup_fst_getD]
  rw [if_pos ⟨h, hj⟩]
  rfl

/-- A survived lethality test of a non-invincible player means the
pre-remap candidate is in bounds and the remapped cell is on nobody's
trail. -/
theorem lethalCheck_false (self : PlayerInfo) (trails : List (List Cell)) (nxy c : Cell)
    (hv : self.invincible = false) (h : lethalCheck self trails nxy c = false) :
    inBoundsC nxy ∧ ∀ t ∈ trails, c ∉ t := by
  unfold lethalCheck at h
  rw [hv] at h
  simp only [Bool.not_false, Bool.true_and, Bool.or_eq_false_iff,
    decide_eq_false_iff_not, List.any_eq_false] at h
  obtain ⟨⟨⟨⟨h1, h2⟩, h3⟩, h4⟩, h5⟩ := h
  refine ⟨⟨by omega, by omega, by omega, by omega⟩, ?_⟩
  intro t ht
  simpa using h5 t ht

/-- An out-of-bounds pre-remap candidate makes the lethality test of a
non-invincible player fire, whatever the remapped cell is. -/
theorem lethalCheck_true_of_oob (self : PlayerInfo) (trails : List (List Cell))
    (nxy c : Cell) (hv : self.invincible = false) (h : ¬ inBoundsC nxy) :
    lethalCheck self trails nxy c = true := by
  unfold lethalCheck
  rw [hv]
  have hor : nxy.1 < 0 ∨ WIDTH ≤ nxy.1 ∨ nxy.2 < 0 ∨ HEIGHT ≤ nxy.2 := by
    unfold inBoundsC at h
    omega
  rcases hor with h1 | h1 | h1 | h1 <;> simp [h1]

theorem applyTurn_fields (req : TurnReq) (p : PlayerInfo) :
    (applyTurn req p).trail = p.trail ∧ (applyTurn req p).powerup = p.powerup ∧
    (applyTurn req p).torus = p.torus ∧ (applyTurn req p).invincible = p.invincible ∧
    (applyTurn req p).dead = p.dead := by
  cases req <;> dsimp only [applyTurn] <;>
    refine ⟨?_, ?_, ?_, ?_, ?_⟩ <;> split <;> try rfl
  all_goals split <;> rfl

theorem Inv_turn (s : GState) (i : Nat) (req : TurnReq) (h : Inv s) :
    Inv (turnStep s i req) := by
  obtain ⟨hok, huniq, hbnd⟩ := h
  unfold turnStep Inv
  dsimp only
  have hent : ∀ k, (s.players.set i (applyTurn req (s.players.getD i dP))).getD k dP =
      (if k = i ∧ i < s.players.length then applyTurn req (s.players.getD i dP)
        else s.players.getD k dP) := fun k => getD_set _ _ _ _ _
  have hpuk : ∀ k, ((s.players.set i (applyTurn req (s.players.getD i dP))).getD k dP).powerup
      = (s.players.getD k dP).powerup := by
    intro k
    rw [hent]
    split
    · next hc =>
      obtain ⟨rfl, _⟩ := hc
      exact (applyTurn_fields req _).2.1
    · rfl
  refine ⟨?_, ?_, ?_⟩
  · intro k hk
    rw [List.length_set] at hk
    rw [hent]
    split
    · obtain ⟨f1, f2, f3, f4, f5⟩ := applyTurn_fields req (s.players.getD i dP)
      exact playerOK_of_fields _ _ _ f3 f4 f5 f1 f2 (hok i (by omega))
    · exact hok k hk
  · intro k1 k2 j hk1 hk2 hp1 hp2
    rw [List.length_set] at hk1 hk2
    rw [hpuk] at hp1 hp2
    exact huniq k1 k2 j hk1 hk2 hp1 hp2
  · intro hE k hk hdead
    rw [List.length_set] at hk
    rw [hent] at hdead ⊢
    revert hdead
    split
    · next hc =>
      intro hdead
      rw [(applyTurn_fields req _).2.2.2.2] at hdead
      have hpp : (applyTurn req (s.players.getD i dP)).position =
          (s.players.getD i dP).position := by
        unfold PlayerInfo.position
        rw [(applyTurn_fields req _).1]
      rw [hpp]
      exact hbnd hE i hc.2 hdead
    · intro hdead
      exact hbnd hE k hk hdead

theorem Inv_pressA (s : GState) (i : Nat) (h : Inv s) : Inv (pressA s i) := by
  obtain ⟨hok, huniq, hbnd⟩ := h
  unfold pressA
  dsimp only
  cases hp : (s.players.getD i dP).powerup with
  | none => exact ⟨hok, huniq, hbnd⟩
  | some j =>
    dsimp only
    refine ⟨?_, huniq, hbnd⟩
    intro k hk
    refine playerOK_transfer _ _ _ (by simp) ?_ ?_ (hok k hk)
    · intro j' _ hj'
      rw [proj_getD_set (fun q => q.consumed) _ _ _ _ (activateSecondaryUpd_consumed _)]
      exact hj'
    · intro j' _
      exact proj_getD_set (fun q => q.position) _ _ _ _ (activateSecondaryUpd_position _)

theorem Inv_pressB (s : GState) (i : Nat) (h : Inv s) : Inv (pressB s i) := by
  obtain ⟨hok, huniq, hbnd⟩ := h
  unfold pressB
  dsimp only
  cases hp : (s.players.getD i dP).powerup with
  | none => exact ⟨hok, huniq, hbnd⟩
  | some j =>
    dsimp only
    have htrans : ∀ q, playerOK s.powerups q →
        playerOK (s.powerups.set j ((s.powerups.getD j dPU).activateUpd)) q := by
      intro q
      refine playerOK_transfer _ _ _ (by simp) ?_ ?_
      · intro j' _ hj'
        rw [proj_getD_set (fun q => q.consumed) _ _ _ _ (activateUpd_consumed _)]
        exact hj'
      · intro j' _
        exact proj_getD_set (fun q => q.position) _ _ _ _ (activateUpd_position _)
    split
    · refine ⟨?_, ?_, ?_⟩
      · intro k hk
        rw [List.length_set] at hk
        rw [getD_set]
        split
        · next hc =>
          refine htrans _ (playerOK_of_fields _ (s.players.getD i dP) _ rfl rfl rfl rfl
            hp.symm (hok i hc.2))
        · exact htrans _ (hok k hk)
      · intro k1 k2 j' hk1 hk2 hp1 hp2
        rw [List.length_set] at hk1 hk2
        rw [getD_set] at hp1 hp2
        have hq1 : (s.players.getD k1 dP).powerup = some j' := by
          revert hp1
          split
          · next hc => obtain ⟨rfl, _⟩ := hc; exact fun hh => hp.trans hh
          · exact fun hh => hh
        have hq2 : (s.players.getD k2 dP).powerup = some j' := by
          revert hp2
          split
          · next hc => obtain ⟨rfl, _⟩ := hc; exact fun hh => hp.trans hh
          · exact fun hh => hh
        exact huniq k1 k2 j' hk1 hk2 hq1 hq2
      · intro hE k hk hdead
        rw [List.length_set] at hk
        rw [getD_set] at hdead ⊢
        revert hdead
        split
        · next hc =>
          intro hdead
          exact hbnd hE i hc.2 hdead
        · intro hdead
          exact hbnd hE k hk hdead
    · exact ⟨fun k hk => htrans _ (hok k hk), huniq, hbnd⟩

theorem Inv_spawn (s : GState) (x y : Int) (k : PKind) (h : Inv s) :
    Inv ⟨s.players, s.powerups ++ [mkPowerup x y k], s.entities⟩ := by
  obtain ⟨hok, huniq, hbnd⟩ := h
  refine ⟨?_, huniq, hbnd⟩
  intro k' hk'
  refine playerOK_transfer _ _ _ (by simp) ?_ ?_ (hok k' hk')
  · intro j hj hc
    rw [getD_append, if_pos hj]
    exact hc
  · intro j hj
    rw [getD_append, if_pos hj]

theorem Inv_join (s : GState) (badge color : Nat) (sx sy : Int)
    (hb : inBoundsC (sx, sy)) (h : Inv s) :
    Inv ⟨s.players ++ [mkPlayer badge color sx sy], s.powerups, s.entities⟩ := by
  obtain ⟨hok, huniq, hbnd⟩ := h
  have hnew : playerOK s.powerups (mkPlayer badge color sx sy) := by
    refine ⟨rfl, rfl, ?_, ?_⟩
    · intro _
      exact List.cons_ne_nil _ _
    · intro j hj
      exact Option.noConfusion hj
  refine ⟨?_, ?_, ?_⟩
  · intro k hk
    simp only [List.length_append, List.length_cons, List.length_nil] at hk
    rw [getD_append]
    by_cases hkl : k < s.players.length
    · rw [if_pos hkl]
      exact hok k hkl
    · rw [if_neg hkl]
      have hz : k - s.players.length = 0 := by omega
      rw [hz]
      exact hnew
  · intro k1 k2 j hk1 hk2 hp1 hp2
    simp only [List.length_append, List.length_cons, List.length_nil] at hk1 hk2
    rw [getD_append] at hp1 hp2
    by_cases h1 : k1 < s.players.length <;> by_cases h2 : k2 < s.players.length
    · rw [if_pos h1] at hp1
      rw [if_pos h2] at hp2
      exact huniq k1 k2 j h1 h2 hp1 hp2
    · exfalso
      rw [if_neg h2] at hp2
      have hz : k2 - s.players.length = 0 := by omega
      rw [hz] at hp2
      exact Option.noConfusion hp2
    · exfalso
      rw [if_neg h1] at hp1
      have hz : k1 - s.players.length = 0 := by omega
      rw [hz] at hp1
      exact Option.noConfusion hp1
    · omega
  · intro hE k hk hdead
    simp only [List.length_append, List.length_cons, List.length_nil] at hk
    rw [getD_append] at hdead ⊢
    by_cases hkl : k < s.players.length
    · rw [if_pos hkl] at hdead ⊢
      exact hbnd hE k hkl hdead
    · rw [if_neg hkl] at hdead ⊢
      have hz : k - s.players.length = 0 := by omega
      rw [hz]
      exact hb

theorem Inv_leave (s : GState) (i : Nat) (h : Inv s) :
    Inv ⟨s.players.eraseIdx i, s.powerups, s.entities⟩ := by
  obtain ⟨hok, huniq, hbnd⟩ := h
  refine ⟨?_, ?_, ?_⟩
  · intro k hk
    rw [getD_eraseIdx]
    exact hok _ (eraseIdx_idx_lt _ i k hk)
  · intro k1 k2 j hk1 hk2 hp1 hp2
    rw [getD_eraseIdx] at hp1 hp2
    have h1 := eraseIdx_idx_lt s.players i k1 hk1
    have h2 := eraseIdx_idx_lt s.players i k2 hk2
    have heq := huniq _ _ j h1 h2 hp1 hp2
    revert heq
    split <;> split <;> omega
  · intro hE k hk hdead
    rw [getD_eraseIdx] at hdead ⊢
    exact hbnd hE _ (eraseIdx_idx_lt _ i k hk) hdead

theorem Inv_endRound (s : GState) (spawns : List Cell) (hs : ∀ c ∈ spawns, inBoundsC c)
    (h : Inv s) : Inv ⟨endRoundPlayers s.players spawns, [], []⟩ := by
  obtain ⟨hok, _⟩ := h
  have hlen : ∀ k, k < (endRoundPlayers s.players spawns).length →
      k < s.players.length ∧ k < spawns.length := by
    intro k hk
    unfold endRoundPlayers at hk
    rw [List.length_zipWith] at hk
    omega
  have hent : ∀ k, k < (endRoundPlayers s.players spawns).length →
      (endRoundPlayers s.players spawns).getD k dP =
        endRoundPlayer (s.players.getD k dP) (spawns.getD k (0, 0)) := by
    intro k hk
    exact getD_zipWith endRoundPlayer s.players spawns k dP dP (0, 0) hk
  refine ⟨?_, ?_, ?_⟩
  · intro k hk
    rw [hent k hk]
    obtain ⟨hk1, hk2⟩ := hlen k hk
    refine ⟨?_, ?_, ?_, ?_⟩
    · exact (hok k hk1).1
    · exact (hok k hk1).2.1
    · intro _
      exact List.cons_ne_nil _ _
    · intro j hj
      exact Option.noConfusion hj
  · intro k1 k2 j hk1 hk2 hp1 hp2
    exfalso
    rw [hent k1 hk1] at hp1
    exact Option.noConfusion hp1
  · intro _ k hk _
    rw [hent k hk]
    obtain ⟨hk1, hk2⟩ := hlen k hk
    have hpp : (endRoundPlayer (s.players.getD k dP) (spawns.getD k (0, 0))).position =
        spawns.getD k (0, 0) := rfl
    rw [hpp]
    exact hs (spawns.getD k (0, 0)) (getD_mem spawns k (0, 0) hk2)

theorem Inv_move (s : GState) (i : Nat) (h : Inv s) : Inv (moveStep s i) := by
  obtain ⟨hok, huniq, hbnd⟩ := h
  unfold moveStep
  dsimp only
  by_cases hd : (s.players.getD i dP).dead = true
  · rw [move_eq_dead _ _ _ _ hd]
    refine ⟨?_, ?_, ?_⟩
    · intro k hk
      rw [List.length_set] at hk
      rw [getD_set_self]
      exact hok k hk
    · intro k1 k2 j hk1 hk2 hp1 hp2
      rw [List.length_set] at hk1 hk2
      rw [getD_set_self] at hp1 hp2
      exact huniq k1 k2 j hk1 hk2 hp1 hp2
    · intro hE k hk hdead
      rw [List.length_set] at hk
      rw [getD_set_self] at hdead ⊢
      exact hbnd hE k hk hdead
  · have hdf : (s.players.getD i dP).dead = false := Bool.eq_false_iff.mpr hd
    have hilt : i < s.players.length := by
      by_contra hge
      have hdp : s.players.getD i dP = dP := getD_length_le _ _ _ (by omega)
      rw [hdp] at hdf
      exact absurd hdf (by decide)
    have hinv0 : (s.players.getD i dP).invincible = false := (hok i hilt).2.1
    cases hl : lethalOf (s.players.getD i dP) (s.players.map (fun q => q.trail))
        s.powerups s.entities with
    | true =>
      obtain ⟨held, mv, nd, hor, hpl, hpus, hents⟩ :=
        move_player_death _ _ _ _ hdf hl
      rw [hpl, hpus]
      refine ⟨?_, ?_, ?_⟩
      · intro k hk
        rw [List.length_set] at hk
        rw [getD_set]
        split
        · refine ⟨(hok i hilt).1, (hok i hilt).2.1, ?_, ?_⟩
          · intro hdead
            exact absurd hdead (by simp)
          · intro j hj
            have hh : held = some j := hj
            cases hor with
            | inl h2 =>
              have hpj : (s.players.getD i dP).powerup = some j := by
                rw [← h2]
                exact hh
              obtain ⟨hj1, hj2, hj3⟩ := (hok i hilt).2.2.2 j hpj
              refine ⟨?_, ?_, ?_⟩
              · rw [mgmtOf_len]
                exact hj1
              · rw [mgmtOf_consumed]
                exact hj2
              · rw [mgmtOf_position]
                exact hj3
            | inr h2 =>
              rw [h2] at hh
              exact Option.noConfusion hh
        · refine playerOK_transfer _ _ _ (by rw [mgmtOf_len]) ?_ ?_ (hok k hk)
          · intro j _ hc
            rw [mgmtOf_consumed]
            exact hc
          · intro j _
            rw [mgmtOf_position]
      · intro k1 k2 j hk1 hk2 hp1 hp2
        rw [List.length_set] at hk1 hk2
        rw [getD_set] at hp1 hp2
        have conv : ∀ kk, (if kk = i ∧ i < s.players.length
            then ({ s.players.getD i dP with
                    powerup := held
                    moves := mv
                    direction := nd
                    dead := true
                    brightness := 0 } : PlayerInfo)
            else s.players.getD kk dP).powerup = some j →
            (s.players.getD kk dP).powerup = some j := by
          intro kk hkk
          revert hkk
          split
          · next hc =>
            obtain ⟨rfl, _⟩ := hc
            intro hkk
            have hh : held = some j := hkk
            cases hor with
            | inl h2 =>
              rw [← h2]
              exact hh
            | inr h2 =>
              rw [h2] at hh
              exact Option.noConfusion hh
          · exact fun hkk => hkk
        exact huniq k1 k2 j hk1 hk2 (conv k1 hp1) (conv k2 hp2)
      · intro hE k hk hdead
        rw [List.length_set] at hk
        rw [hents] at hE
        have hE0 : s.entities = [] :=
          mgmtOf_entities_nil (s.players.getD i dP) s.powerups s.entities hE
        rw [getD_set] at hdead ⊢
        revert hdead
        split
        · intro hdead
          exact absurd hdead (by simp)
        · intro hdead
          exact hbnd hE0 k hk hdead
    | false =>
      obtain ⟨held, mv, nd, hor, hpl, hpus, hents⟩ :=
        move_player_alive _ _ _ _ hdf hl
      have hli : ({ (mgmtOf (s.players.getD i dP) s.powerups s.entities).self with
          direction := (remapOf (mgmtOf (s.players.getD i dP) s.powerups
            s.entities)).2 } : PlayerInfo).invincible = false := by
        obtain ⟨held2, mv2, hs2, _⟩ :=
          mgmtOf_self_shape (s.players.getD i dP) s.powerups s.entities
        show (mgmtOf (s.players.getD i dP) s.powerups s.entities).self.invincible = false
        rw [hs2]
        exact hinv0
      obtain ⟨hbounds, hnotrail⟩ := lethalCheck_false _ _ _ _ hli hl
      rw [hpl, hpus]
      refine ⟨?_, ?_, ?_⟩
      · intro k hk
        rw [List.length_set] at hk
        rw [getD_set]
        split
        · refine ⟨(hok i hilt).1, (hok i hilt).2.1, ?_, ?_⟩
          · intro _
            simp
          · intro j hj
            have hj2 : (pickupLoop
                (remapOf (mgmtOf (s.players.getD i dP) s.powerups s.entities)).1 0
                (mgmtOf (s.players.getD i dP) s.powerups s.entities).powerups held).2 =
                some j := hj
            rcases pickup_snd_cases
                (remapOf (mgmtOf (s.players.getD i dP) s.powerups s.entities)).1 0
                (mgmtOf (s.players.getD i dP) s.powerups s.entities).powerups held with
              hc | hc
            · have hh : held = some j := by
                rw [← hc]
                exact hj2
              cases hor with
              | inl h2 =>
                have hpj : (s.players.getD i dP).powerup = some j := by
                  rw [← h2]
                  exact hh
                obtain ⟨hj1, hj3, hj4⟩ := (hok i hilt).2.2.2 j hpj
                refine ⟨?_, ?_, ?_⟩
                · rw [pickup_fst_len, mgmtOf_len]
                  exact hj1
                · apply pickup_consumed_mono
                  rw [mgmtOf_consumed]
                  exact hj3
                · rw [pickup_position, mgmtOf_position]
                  exact List.mem_append_left _ hj4
              | inr h2 =>
                rw [h2] at hh
                exact Option.noConfusion hh
            · obtain ⟨hheldnone, k', hk'lt, hsnd, hpos'⟩ := hc
              have hjk : j = k' := by
                have h3 := hj2.symm.trans hsnd
                injection h3 with h4
                omega
              subst hjk
              refine ⟨?_, ?_, ?_⟩
              · rw [pickup_fst_len]
                exact hk'lt
              · exact pickup_consumed_of_match _ _ _ _ hk'lt hpos'
              · rw [pickup_position, hpos']
                exact List.mem_append_right _ (List.mem_singleton.mpr rfl)
        · refine playerOK_transfer _ _ _ ?_ ?_ ?_ (hok k hk)
          · rw [pickup_fst_len, mgmtOf_len]
          · intro j _ hc
            apply pickup_consumed_mono
            rw [mgmtOf_consumed]
            exact hc
          · intro j _
            rw [pickup_position, mgmtOf_position]
      · intro k1 k2 j hk1 hk2 hp1 hp2
        rw [List.length_set] at hk1 hk2
        rw [getD_set] at hp1 hp2
        have hgrant : ∀ kk, kk < s.players.length → kk ≠ i →
            (s.players.getD kk dP).powerup = some j →
            (pickupLoop
              (remapOf (mgmtOf (s.players.getD i dP) s.powerups s.entities)).1 0
              (mgmtOf (s.players.getD i dP) s.powerups s.entities).powerups held).2 =
              some j → False := by
          intro kk hkklt hkkne hpkk hsnd0
          rcases pickup_snd_cases
              (remapOf (mgmtOf (s.players.getD i dP) s.powerups s.entities)).1 0
              (mgmtOf (s.players.getD i dP) s.powerups s.entities).powerups held with
            hc | hc
          · have hh : held = some j := by
              rw [← hc]
              exact hsnd0
            cases hor with
            | inl h2 =>
              have hpj : (s.players.getD i dP).powerup = some j := by
                rw [← h2]
                exact hh
              exact hkkne (huniq kk i j hkklt hilt hpkk hpj)
            | inr h2 =>
              rw [h2] at hh
              exact Option.noConfusion hh
          · obtain ⟨hheldnone, k', hk'lt, hsnd, hpos'⟩ := hc
            have hjk : j = k' := by
              have h3 := hsnd0.symm.trans hsnd
              injection h3 with h4
              omega
            subst hjk
            obtain ⟨hj1, hj3, hj4⟩ := (hok kk hkklt).2.2.2 j hpkk
            have hpos2 : ((s.powerups.getD j dPU)).position =
                (remapOf (mgmtOf (s.players.getD i dP) s.powerups s.entities)).1 := by
              rw [← mgmtOf_position (s.players.getD i dP) s.powerups s.entities j]
              exact hpos'
            have hmem : (s.players.getD kk dP).trail ∈
                s.players.map (fun q => q.trail) :=
              List.mem_map.mpr ⟨s.players.getD kk dP, getD_mem _ _ _ hkklt, rfl⟩
            exact hnotrail _ hmem (hpos2 ▸ hj4)
        by_cases hc1 : k1 = i ∧ i < s.players.length
        · by_cases hc2 : k2 = i ∧ i < s.players.length
          · rw [hc1.1, hc2.1]
          · rw [if_pos hc1] at hp1
            rw [if_neg hc2] at hp2
            have hk2ne : k2 ≠ i := by
              intro hkeq
              exact hc2 ⟨hkeq, hilt⟩
            exact (hgrant k2 hk2 hk2ne hp2 hp1).elim
        · by_cases hc2 : k2 = i ∧ i < s.players.length
          · rw [if_neg hc1] at hp1
            rw [if_pos hc2] at hp2
            have hk1ne : k1 ≠ i := by
              intro hkeq
              exact hc1 ⟨hkeq, hilt⟩
            exact (hgrant k1 hk1 hk1ne hp1 hp2).elim
          · rw [if_neg hc1] at hp1
            rw [if_neg hc2] at hp2
            exact huniq k1 k2 j hk1 hk2 hp1 hp2
      · intro hE k hk hdead
        rw [List.length_set] at hk
        rw [hents] at hE
        have hE0 : s.entities = [] :=
          mgmtOf_entities_nil (s.players.getD i dP) s.powerups s.entities hE
        rw [getD_set] at hdead ⊢
        revert hdead
        split
        · intro _
          show inBoundsC (((s.players.getD i dP).trail ++
            [(remapOf (mgmtOf (s.players.getD i dP) s.powerups
              s.entities)).1]).getLast?.getD (0, 0))
          rw [getLast?_append_single]
          rw [remapOf_nil (mgmtOf (s.players.getD i dP) s.powerups s.entities) hE]
          exact hbounds
        · intro hdead
          exact hbnd hE0 k hk hdead

/-- The invariant holds in every reachable state. -/
theorem reachable_inv (s : GState) (h : Reachable s) : Inv s := by
  induction h with
  | start =>
    exact ⟨fun i hi => absurd hi (by simp),
      fun k1 k2 j hk1 hk2 hp1 hp2 => absurd hk1 (by simp),
      fun _ i hi => absurd hi (by simp)⟩
  | step hr hst ih =>
    cases hst with
    | turn i req => exact Inv_turn _ i req ih
    | buttonA i => exact Inv_pressA _ i ih
    | buttonB i => exact Inv_pressB _ i ih
    | moveOne i => exact Inv_move _ i ih
    | spawnPU x y k hb => exact Inv_spawn _ x y k ih
    | join badge color sx sy hb => exact Inv_join _ badge color sx sy hb ih
    | leave i => exact Inv_leave _ i ih
    | endRound spawns hs => exact Inv_endRound _ spawns hs ih

/-- C2, confirmed.  In every reachable state, a held powerup reference is
a valid index of a consumed powerup, and no powerup is held by two
different players: the pickup grants a powerup only to a mover that
survives the lethality test, and a consumed powerup's cell always lies on
its holder's trail, which would have killed that mover first. -/
theorem c2_exclusive_powerup :
    ∀ s, Reachable s →
      (∀ i j, i < s.players.length → (s.players.getD i dP).powerup = some j →
        j < s.powerups.length ∧ (s.powerups.getD j dPU).consumed = true) ∧
      (∀ i₁ i₂ j, i₁ < s.players.length → i₂ < s.players.length →
        (s.players.getD i₁ dP).powerup = some j →
        (s.players.getD i₂ dP).powerup = some j → i₁ = i₂) := by
  intro s hs
  obtain ⟨hok, huniq, _⟩ := reachable_inv s hs
  refine ⟨?_, huniq⟩
  intro i j hi hp
  exact ⟨((hok i hi).2.2.2 j hp).1, ((hok i hi).2.2.2 j hp).2.1⟩

/-- Concrete run refuting the C7 invariant.  Player 1 joins at `(100, 4)`
and player 2 at `(109, 2)`; a Portal powerup spawns at `(100, 3)`.
Player 1 turns up, moves onto the powerup (pickup), presses A and moves
(deploying the blue portal out of bounds at `(100, -7)`, facing up), then
turns right, presses B and moves (deploying the orange portal in bounds at
`(110, 2)`, facing right, linked to the blue one).  Player 2, moving
right, now steps into the orange portal's span: the out-of-bounds test
uses its pre-remap candidate `(110, 2)`, so it survives, and the portal
remap lands its head at `(100, -7)` — alive and out of bounds. -/
def cx1 : GState := ⟨[mkPlayer 1 0 100 4], [], []⟩

def cx2 : GState := ⟨[mkPlayer 1 0 100 4, mkPlayer 2 0 109 2], [], []⟩

def cx3 : GState := ⟨cx2.players, [mkPowerup 100 3 PKind.Portal], []⟩

def cx4 : GState := turnStep cx3 0 TurnReq.u

def cx5 : GState := moveStep cx4 0

def cx6 : GState := pressA cx5 0

def cx7 : GState := moveStep cx6 0

def cx8 : GState := turnStep cx7 0 TurnReq.r

def cx9 : GState := pressB cx8 0

def cx10 : GState := moveStep cx9 0

def cx11 : GState := moveStep cx10 1

theorem cx11_reachable : Reachable cx11 := by
  refine Reachable.step ?_ (GStep.moveOne cx10 1)
  refine Reachable.step ?_ (GStep.moveOne cx9 0)
  refine Reachable.step ?_ (GStep.buttonB cx8 0)
  refine Reachable.step ?_ (GStep.turn cx7 0 TurnReq.r)
  refine Reachable.step ?_ (GStep.moveOne cx6 0)
  refine Reachable.step ?_ (GStep.buttonA cx5 0)
  refine Reachable.step ?_ (GStep.moveOne cx4 0)
  refine Reachable.step ?_ (GStep.turn cx3 0 TurnReq.u)
  refine Reachable.step ?_ (GStep.spawnPU cx2 100 3 PKind.Portal (by decide))
  refine Reachable.step ?_ (GStep.join cx1 2 0 109 2 (by decide))
  refine Reachable.step ?_ (GStep.join ⟨[], [], []⟩ 1 0 100 4 (by decide))
  exact Reachable.start

set_option maxRecDepth 16000 in
/-- C7, counterexample.  In the reachable state `cx11` player 2 has its
wrap flags false, is alive, and its trail head `(100, -7)` is out of
bounds: game.py line 444 binds `nx, ny` to the pre-remap candidate before
the entity loop, so the out-of-bounds kill at line 453 never sees the
portal-remapped cell that is actually appended to the trail. -/
theorem c7_counterexample :
    Reachable cx11 ∧
    (cx11.players.getD 1 dP).torus = (false, false) ∧
    (cx11.players.getD 1 dP).dead = false ∧
    (cx11.players.getD 1 dP).position = (100, -7) ∧
    ¬ inBoundsC (cx11.players.getD 1 dP).position := by
  refine ⟨cx11_reachable, ?_, ?_, ?_, ?_⟩ <;> decide

/-- C7, amended.  The alive-in-bounds invariant holds in every reachable
state in which no portal entity is placed; and a sub-move whose
**pre-remap** candidate cell (head + displacement, before the portal
entity loop) is out of bounds kills the non-invincible player instead of
moving it (trail unchanged).  With portals placed the invariant can fail,
because the out-of-bounds test reads the candidate bound before the remap
(see the counterexample). -/
theorem c7_bounds_amended :
    (∀ s, Reachable s → s.entities = [] → ∀ i, i < s.players.length →
      (s.players.getD i dP).dead = false →
      inBoundsC (s.players.getD i dP).position) ∧
    (∀ (p : PlayerInfo) (trails : List (List Cell)) (pus : List Powerup)
      (ents : List Portal), p.dead = false → p.invincible = false →
      ¬ inBoundsC (candidateOf (mgmtOf p pus ents)) →
      (move p trails pus ents).player.dead = true ∧
      (move p trails pus ents).player.trail = p.trail) := by
  constructor
  · intro s hs hE i hi hdf
    exact (reachable_inv s hs).2.2 hE i hi hdf
  · intro p trails pus ents hdf hv hoob
    have hvm : ({ (mgmtOf p pus ents).self with
        direction := (remapOf (mgmtOf p pus ents)).2 } : PlayerInfo).invincible = false := by
      obtain ⟨held2, mv2, hs2, _⟩ := mgmtOf_self_shape p pus ents
      show (mgmtOf p pus ents).self.invincible = false
      rw [hs2]
      exact hv
    have hl : lethalOf p trails pus ents = true :=
      lethalCheck_true_of_oob _ trails (candidateOf (mgmtOf p pus ents))
        (remapOf (mgmtOf p pus ents)).1 hvm hoob
    obtain ⟨held, mv, nd, _, hpl, _⟩ := move_player_death p trails pus ents hdf hl
    rw [hpl]
    exact ⟨rfl, rfl⟩

/-- Concrete reachable states for the C2/C7 witnesses: one player joins at
`(3, 16)`, a Jump powerup spawns at `(4, 16)`, and the player's first
movement sub-step picks it up. -/
def sW1 : GState := ⟨[mkPlayer 7 0 3 16], [], []⟩

def sW2 : GState := ⟨[mkPlayer 7 0 3 16], [mkPowerup 4 16 PKind.Jump], []⟩

def sW3 : GState := moveStep sW2 0

theorem sW1_reachable : Reachable sW1 :=
  Reachable.step Reachable.start (GStep.join ⟨[], [], []⟩ 7 0 3 16 (by decide))

theorem sW3_reachable : Reachable sW3 :=
  Reachable.step
    (Reachable.step sW1_reachable (GStep.spawnPU sW1 4 16 PKind.Jump (by decide)))
    (GStep.moveOne sW2 0)

/-- C2, witness: in the concrete reachable state the held reference points
at the consumed powerup 0, and the theorem applies. -/
theorem c2_witness :
    (sW3.players.getD 0 dP).powerup = some 0 ∧
    0 < sW3.powerups.length ∧ (sW3.powerups.getD 0 dPU).consumed = true := by
  have hc := (c2_exclusive_powerup sW3 sW3_reachable).1 0 0 (by decide) (by decide)
  exact ⟨by decide, hc.1, hc.2⟩

/-- C7, witness for the amended theorem: in the portal-free reachable
state `sW1` the joined player's head is in bounds, and a sub-move over
the left wall (pre-remap candidate `(-1, 16)`) kills the player with its
trail unchanged. -/
theorem c7_witness :
    inBoundsC (sW1.players.getD 0 dP).position ∧
    (move pL [pL.trail] [] []).player.dead = true ∧
    (move pL [pL.trail] [] []).player.trail = pL.trail := by
  refine ⟨c7_bounds_amended.1 sW1 sW1_reachable (by decide) 0 (by decide) (by decide), ?_⟩
  exact c7_bounds_amended.2 pL [pL.trail] [] [] (by decide) (by decide) (by decide)

end SwadgeGame
